import Mathlib

/-!
# Giveaway share tracker (`src/script.js`): embedding and verification

The script keeps one mutable record `currentSubmission`, three `localStorage`
cells and a handful of DOM nodes.  Here every handler is a function from the
state before the call to the state after it (`World → Outcome`), with the
pieces of the environment a handler reads (`Date.now()`, the random source,
the form fields) passed as arguments.

Modelling conventions.

* The counters and the timestamps (`totalShares`, `Date.now()` values) are
  integers.  The wallet amount is a double as `parseFloat` returns it
  (`JsDouble`: a finite value as a rational, an infinity, or NaN) or `null`.
* A JavaScript `Set` of strings is a duplicate-free list in insertion order
  (`StrSet`), which is also the order `Array.from` produces.
* `null` is `none`; truthiness of a string-or-null value is `truthy`.
* A `localStorage` cell is absent, holds a string that `JSON.parse` rejects
  (`Stored.text`), or holds JSON text that `JSON.parse` reads as the value `v`
  (`Stored.json v`), of the shape `saveData` writes.  What `JSON.stringify`
  changes on the way is applied when the cell is written: a number that is not
  finite is written as `null` (`jsonNumber`).
* An exception leaves the state as mutated so far: an `Outcome` is the state
  reached together with the error thrown, if any.
* `String.prototype.toLowerCase` is a parameter (`Platform`); `trim` is
  implemented on the ECMAScript white-space and line-terminator characters.
* DOM nodes are assumed to exist.  Modelled: the share error text, the
  `group-name` input, the two progress numbers, the key output, the modal and
  share-button flags, the active page, the form error texts and alerts.
-/

namespace Giveaway

/-! ## Constants (script.js 12-14) -/

def MAX_UNIQUE_GROUPS : Nat := 8
def MAX_TOTAL_SHARES : Int := 18
def MIN_SHARE_TIME_MS : Int := 5000

/-! ## JavaScript values used by the script -/

/-- Insertion-ordered set of strings, as a JavaScript `Set` holding strings. -/
structure StrSet where
  items : List String
  nodup : items.Nodup

namespace StrSet

/-- The value of `new Set()`. -/
def empty : StrSet := ⟨[], List.nodup_nil⟩

/-- The `size` property. -/
def size (s : StrSet) : Nat := s.items.length

/-- The method `has`. -/
def has (s : StrSet) (x : String) : Bool := decide (x ∈ s.items)

/-- The method `add`: appends `x` unless it is present. -/
def add (s : StrSet) (x : String) : StrSet :=
  if h : x ∈ s.items then s
  else ⟨s.items ++ [x], List.Nodup.append s.nodup (List.nodup_singleton x)
    (by
      intro a ha hx
      have hax : a = x := by simpa using hx
      exact h (hax ▸ ha))⟩

/-- The array `Array.from(set)`. -/
def toArray (s : StrSet) : List String := s.items

/-- The set `new Set(array)`. -/
def ofArray (xs : List String) : StrSet := xs.foldl add empty

end StrSet

/-- Truthiness of a value that is `null` or a string. -/
def truthy : Option String → Bool
  | none => false
  | some s => !decide (s = "")

/-- The expression `x || 0` for a number `x`. -/
def orZero (x : Int) : Int := if x = 0 then 0 else x

/-- A double as `parseFloat` returns it: a finite value (as a rational; the two zeros
are one value, as `===` has it), an infinity, or NaN. -/
inductive JsDouble where
  | finite (value : ℚ)
  | posInfinity
  | negInfinity
  | nan
deriving DecidableEq

/-- The expression `x || 0` for a double `x`: zero and NaN are falsy. -/
def JsDouble.orZero : JsDouble → JsDouble
  | JsDouble.finite q => if q = 0 then JsDouble.finite 0 else JsDouble.finite q
  | JsDouble.nan => JsDouble.finite 0
  | JsDouble.posInfinity => JsDouble.posInfinity
  | JsDouble.negInfinity => JsDouble.negInfinity

/-- The comparison `x < 0` for a double `x`. -/
def JsDouble.isNegative : JsDouble → Bool
  | JsDouble.finite q => decide (q < 0)
  | JsDouble.negInfinity => true
  | JsDouble.posInfinity => false
  | JsDouble.nan => false

/-- The value `JSON.parse(JSON.stringify(x))` for `x` a number or `null`: a number
that is not finite is written as `null`. -/
def jsonNumber : Option JsDouble → Option JsDouble
  | some (JsDouble.finite q) => some (JsDouble.finite q)
  | some JsDouble.posInfinity => none
  | some JsDouble.negInfinity => none
  | some JsDouble.nan => none
  | none => none

/-- White space and line terminators removed by `String.prototype.trim`. -/
def isTrimChar (c : Char) : Bool :=
  let n := c.toNat
  (9 ≤ n && n ≤ 13) || n == 32 || n == 160 || n == 5760 ||
  (8192 ≤ n && n ≤ 8202) || n == 8232 || n == 8233 || n == 8239 ||
  n == 8287 || n == 12288 || n == 65279

/-- The method `trim`. -/
def trim (s : String) : String :=
  String.mk ((((s.data.dropWhile isTrimChar).reverse).dropWhile isTrimChar).reverse)

/-- Functions of the host that the script calls and that are left abstract. -/
structure Platform where
  toLowerCase : String → String

/-! ## Data model (script.js 23-38) -/

structure ShareData where
  totalShares : Int
  uniqueGroups : StrSet
  lastShareTimestamp : Int

structure Submission where
  id : Option String
  playerId : Option String
  playerName : Option String
  region : Option String
  membership : Option String
  walletAmount : Option JsDouble
  currency : String
  shareData : ShareData
  winKey : Option String
  timestamp : Int

/-- The record literal of script.js 23-38; `t0` is `Date.now()` at load. -/
def initialSubmission (t0 : Int) : Submission :=
  { id := none, playerId := none, playerName := none, region := none,
    membership := none, walletAmount := some (JsDouble.finite 0), currency := "LKR",
    shareData := { totalShares := 0, uniqueGroups := StrSet.empty,
                   lastShareTimestamp := 0 },
    winKey := none, timestamp := t0 }

/-! ## Persisted storage -/

/-- One `localStorage` cell. -/
inductive Stored (α : Type) where
  | absent
  | text (raw : String)
  | json (value : α)

/-- Object written under `ffGiveawayFormData`. -/
structure FormBlob where
  id : Option String
  playerId : Option String
  playerName : Option String
  region : Option String
  membership : Option String
  walletAmount : Option JsDouble
  currency : String
  winKey : Option String
  timestamp : Int
deriving DecidableEq

/-- Object written under `ffGiveawayShareData`. -/
structure ShareBlob where
  totalShares : Int
  uniqueGroups : List String
  lastShareTimestamp : Int
deriving DecidableEq

/-- One element of the array written under `ffGiveawaySubmissions`. -/
structure LogEntry where
  id : Option String
  playerId : Option String
  membership : Option String
  winKey : Option String
  totalShares : Int
  uniqueGroups : Nat
  timestamp : Int
deriving DecidableEq

structure Storage where
  formData : Stored FormBlob
  shareData : Stored ShareBlob
  submissions : Stored (List LogEntry)

/-- The value of `localStorage.getItem(k)` used as a condition. -/
def Stored.truthy {α : Type} : Stored α → Bool
  | Stored.absent => false
  | Stored.text raw => !decide (raw = "")
  | Stored.json _ => true

/-! ## The DOM nodes the handlers write -/

structure UI where
  errorShareGroup : String
  groupName : String
  progressGroups : Nat
  progressTotal : Int
  keyOutput : String
  modalHidden : Bool
  whatsappShareDisabled : Bool
  manualShareDisabled : Bool
  activePage : String
  formErrors : List String
  alerts : List String

structure World where
  currentSubmission : Submission
  localStorage : Storage
  ui : UI

inductive JsError where
  | syntaxError
  | typeError
deriving DecidableEq

/-- State reached by a call, and the exception it ended with, if any. -/
structure Outcome where
  world : World
  error : Option JsError

/-- Normal completion. -/
def done (w : World) : Outcome := { world := w, error := none }

/-- Abrupt completion. -/
def throwJs (w : World) (e : JsError) : Outcome := { world := w, error := some e }

/-- Sequencing of statements: the rest runs only after a normal completion. -/
def Outcome.andThen (o : Outcome) (f : World → Outcome) : Outcome :=
  match o.error with
  | none => f o.world
  | some _ => o

/-! ## Storage (script.js 48-165) -/

/-- The method `findIndex`; `none` stands for the result `-1`. -/
def findIndex {α : Type} (p : α → Bool) : List α → Option Nat
  | [] => none
  | x :: xs => if p x then some 0 else (findIndex p xs).map (· + 1)

/-- The object `logEntry` of script.js 143-151. -/
def logEntryOf (cur : Submission) : LogEntry :=
  { id := cur.id, playerId := cur.playerId, membership := cur.membership,
    winKey := cur.winKey, totalShares := cur.shareData.totalShares,
    uniqueGroups := cur.shareData.uniqueGroups.toArray.length,
    timestamp := cur.timestamp }

/-- The value of `JSON.parse(localStorage.getItem(KEY) || '[]')`; `none` when
`JSON.parse` throws. -/
def parseSubmissions : Stored (List LogEntry) → Option (List LogEntry)
  | Stored.absent => some []
  | Stored.text raw => if raw = "" then some [] else none
  | Stored.json v => some v

/-- Function `updateSubmissionLog` (script.js 138-165).  The closing call of
`submitToServer` only writes to the console. -/
def updateSubmissionLog (w : World) : Outcome :=
  match parseSubmissions w.localStorage.submissions with
  | none => throwJs w JsError.syntaxError
  | some submissions =>
    let existingIndex :=
      findIndex (fun s => decide (s.id = w.currentSubmission.id)) submissions
    let logEntry := logEntryOf w.currentSubmission
    let submissions1 :=
      match existingIndex with
      | some i => submissions.set i logEntry
      | none => submissions ++ [logEntry]
    done { w with localStorage :=
      { w.localStorage with submissions := Stored.json submissions1 } }

/-- The object `formDataToSave` of script.js 82-92, as `JSON.parse` reads it back from
the text `JSON.stringify` makes of it. -/
def formBlobOf (cur : Submission) : FormBlob :=
  { id := cur.id, playerId := cur.playerId, playerName := cur.playerName,
    region := cur.region, membership := cur.membership,
    walletAmount := jsonNumber cur.walletAmount, currency := cur.currency,
    winKey := cur.winKey, timestamp := cur.timestamp }

/-- The object `shareDataToSave` of script.js 96-101. -/
def shareBlobOf (cur : Submission) : ShareBlob :=
  { totalShares := cur.shareData.totalShares,
    uniqueGroups := cur.shareData.uniqueGroups.toArray,
    lastShareTimestamp := cur.shareData.lastShareTimestamp }

/-- Function `saveData` (script.js 80-108). -/
def saveData (w : World) : Outcome :=
  let w1 : World := { w with localStorage :=
    { w.localStorage with formData := Stored.json (formBlobOf w.currentSubmission) } }
  let w2 : World := { w1 with localStorage :=
    { w1.localStorage with shareData := Stored.json (shareBlobOf w1.currentSubmission) } }
  if truthy w2.currentSubmission.winKey then updateSubmissionLog w2 else done w2

/-- First half of `loadData` (script.js 52-64). -/
def loadFormData (w : World) : Outcome :=
  if w.localStorage.formData.truthy then
    match w.localStorage.formData with
    | Stored.json b =>
      done { w with currentSubmission :=
        { w.currentSubmission with
          id := b.id, playerId := b.playerId, playerName := b.playerName,
          region := b.region, membership := b.membership,
          walletAmount := b.walletAmount, currency := b.currency,
          winKey := b.winKey, timestamp := b.timestamp } }
    | _ => throwJs w JsError.syntaxError
  else done w

/-- Second half of `loadData` (script.js 66-73). -/
def loadShareData (w : World) : Outcome :=
  if w.localStorage.shareData.truthy then
    match w.localStorage.shareData with
    | Stored.json b =>
      done { w with currentSubmission :=
        { w.currentSubmission with shareData :=
          { totalShares := orZero b.totalShares,
            uniqueGroups := StrSet.ofArray b.uniqueGroups,
            lastShareTimestamp := orZero b.lastShareTimestamp } } }
    | _ => throwJs w JsError.syntaxError
  else done w

/-- Function `loadData` (script.js 48-74). -/
def loadData (w : World) : Outcome :=
  (loadFormData w).andThen loadShareData

/-! ## Key generation (script.js 440-471) -/

/-- Source of randomness seen by `generateKey`.  With `crypto`, `bytes i` is
the `i`-th byte that `getRandomValues` delivers (reduced modulo 256, the range
of a `Uint8Array` cell).  With `mathRandom` there is no `window.crypto`, and the
`i`-th call of `Math.random()` returns `(draws i % 2^53) / 2^53`. -/
inductive RandomSource where
  | crypto (bytes : Nat → Nat)
  | mathRandom (draws : Nat → Nat)

def segments : Nat := 4
def segmentLength : Nat := 4
def chars : String := "ABCDEFGHIJKLMNOPQRSTUVWXYZ0123456789"

/-- The statement `segment += chars[i]`. -/
def appendIndexed (segment : String) (i : Nat) : String :=
  match chars.data[i]? with
  | some c => segment.push c
  | none => segment ++ "undefined"

/-- The statement `segment += chars.charAt(i)`. -/
def appendCharAt (segment : String) (i : Nat) : String :=
  match chars.data[i]? with
  | some c => segment.push c
  | none => segment

/-- The double nearest to `n / 2^53`, given as the numerator `m` of `m / 2^53`: the
integer `n` rounded to 53 significant bits, ties to the even significand. -/
def roundToDouble (n : Nat) : Nat :=
  let s := Nat.log2 n + 1 - 53
  if s = 0 then n
  else
    let q := n / 2 ^ s
    let r := n % 2 ^ s
    if 2 ^ (s - 1) < r ∨ (r = 2 ^ (s - 1) ∧ q % 2 = 1) then (q + 1) * 2 ^ s
    else q * 2 ^ s

/-- The value of `Math.floor(Math.random() * chars.length)` for the draw `d`: the
product is a double, rounded from the exact product, before `Math.floor` is taken. -/
def floorScaled (d : Nat) : Nat :=
  roundToDouble ((d % 2 ^ 53) * chars.length) / 2 ^ 53

/-- The closure `generateSegment` (script.js 447-463), with the source left
after its draws. -/
def generateSegment : RandomSource → String × RandomSource
  | RandomSource.crypto bytes =>
    let randomBytes : List Nat :=
      (List.range segmentLength).map (fun i => bytes i % 256)
    ((List.range segmentLength).foldl
        (fun segment i => appendIndexed segment (randomBytes.getD i 0 % chars.length)) "",
      RandomSource.crypto (fun i => bytes (i + segmentLength)))
  | RandomSource.mathRandom draws =>
    ((List.range segmentLength).foldl
        (fun segment i => appendCharAt segment (floorScaled (draws i))) "",
      RandomSource.mathRandom (fun i => draws (i + segmentLength)))

/-- One turn of the loop of script.js 465-468. -/
def keyLoopBody (st : String × RandomSource) (i : Nat) : String × RandomSource :=
  let key := if i > 0 then st.1 ++ "-" else st.1
  let r := generateSegment st.2
  (key ++ r.1, r.2)

/-- Function `generateKey` (script.js 440-471). -/
def generateKey (rnd : RandomSource) : String :=
  ((List.range segments).foldl keyLoopBody ("FF-", rnd)).1

/-! ## Unlocking and progress (script.js 389-428, 476-493) -/

/-- Function `unlockMembershipKey` (script.js 476-493). -/
def unlockMembershipKey (w : World) (rnd : RandomSource) : Outcome :=
  let generated : Outcome :=
    if !truthy w.currentSubmission.winKey then
      saveData { w with currentSubmission :=
        { w.currentSubmission with winKey := some (generateKey rnd) } }
    else done w
  generated.andThen fun w1 =>
    updateSubmissionLog { w1 with ui :=
      { w1.ui with keyOutput := w1.currentSubmission.winKey.getD "",
                   modalHidden := false,
                   whatsappShareDisabled := true,
                   manualShareDisabled := true } }

/-- Function `updateProgressUI` (script.js 389-428); of the rendering, the two
progress numbers are kept. -/
def updateProgressUI (w : World) (rnd : RandomSource) : Outcome :=
  let groupsProgress := w.currentSubmission.shareData.uniqueGroups.size
  let totalProgress := w.currentSubmission.shareData.totalShares
  let w1 : World := { w with ui :=
    { w.ui with progressGroups := groupsProgress, progressTotal := totalProgress } }
  if groupsProgress ≥ MAX_UNIQUE_GROUPS ∧ totalProgress ≥ MAX_TOTAL_SHARES then
    unlockMembershipKey w1 rnd
  else done w1

/-! ## Share tracking (script.js 331-384) -/

/-- Writes `text` into the node `error-share-group`. -/
def setShareError (w : World) (text : String) : World :=
  { w with ui := { w.ui with errorShareGroup := text } }

/-- The constant `normalizedGroup` of script.js 342. -/
def normalizedGroup (P : Platform) (groupName : String) : String :=
  P.toLowerCase (trim groupName)

/-- The flag `countedAsUnique` after script.js 344-350. -/
def countedAsUnique (P : Platform) (w : World) (groupName : String) : Bool :=
  !decide (normalizedGroup P groupName = "") &&
  decide (w.currentSubmission.shareData.uniqueGroups.size < MAX_UNIQUE_GROUPS) &&
  !w.currentSubmission.shareData.uniqueGroups.has (normalizedGroup P groupName)

/-- The flag `countedAsTotal` after script.js 352-356. -/
def countedAsTotal (w : World) : Bool :=
  decide (w.currentSubmission.shareData.totalShares < MAX_TOTAL_SHARES)

/-- The record after the two counting steps of script.js 344-356. -/
def countShare (P : Platform) (w : World) (groupName : String) : World :=
  let sd := w.currentSubmission.shareData
  let sd1 : ShareData :=
    if countedAsUnique P w groupName then
      { sd with uniqueGroups := sd.uniqueGroups.add (normalizedGroup P groupName) }
    else sd
  let sd2 : ShareData :=
    if countedAsTotal w then { sd1 with totalShares := sd1.totalShares + 1 } else sd1
  { w with currentSubmission := { w.currentSubmission with shareData := sd2 } }

/-- Function `incrementShare` (script.js 331-371); `now` is `Date.now()`. -/
def incrementShare (P : Platform) (w : World) (groupName : String) (now : Int)
    (rnd : RandomSource) : Outcome :=
  if now - w.currentSubmission.shareData.lastShareTimestamp < MIN_SHARE_TIME_MS then
    done (setShareError w "Please wait 5 seconds between shares.")
  else
    let w0 := setShareError w ""
    let w1 := countShare P w0 groupName
    if countedAsTotal w0 || countedAsUnique P w0 groupName then
      let w2 : World := { w1 with currentSubmission :=
        { w1.currentSubmission with shareData :=
          { w1.currentSubmission.shareData with lastShareTimestamp := now } } }
      ((saveData w2).andThen fun w3 => updateProgressUI w3 rnd).andThen fun w4 =>
        done { w4 with ui := { w4.ui with groupName := "" } }
    else if w1.currentSubmission.shareData.totalShares ≥ MAX_TOTAL_SHARES ∧
        w1.currentSubmission.shareData.uniqueGroups.size ≥ MAX_UNIQUE_GROUPS then
      done (setShareError w1 "Share requirements already met!")
    else
      done (setShareError w1
        "This group name has already been counted, or the maximum share count has been reached.")

/-- Function `handleManualShareClick` (script.js 376-384). -/
def handleManualShareClick (P : Platform) (w : World) (now : Int)
    (rnd : RandomSource) : Outcome :=
  let groupName := trim w.ui.groupName
  if groupName = "" then
    done (setShareError w "Please enter the group name or number you shared to.")
  else incrementShare P w groupName now rnd

/-- Click handler of `debug-share-btn` (script.js 642-649). -/
def debugShareClick (w : World) (rnd : RandomSource) : Outcome :=
  if w.currentSubmission.shareData.totalShares < MAX_TOTAL_SHARES then
    let w1 : World := { w with currentSubmission :=
      { w.currentSubmission with shareData :=
        { w.currentSubmission.shareData with
          totalShares := w.currentSubmission.shareData.totalShares + 1 } } }
    (saveData w1).andThen fun w2 => updateProgressUI w2 rnd
  else done w

/-- Click handler of `debug-group-btn` (script.js 651-659). -/
def debugGroupClick (w : World) (now : Int) (rnd : RandomSource) : Outcome :=
  if w.currentSubmission.shareData.uniqueGroups.size < MAX_UNIQUE_GROUPS then
    let w1 : World := { w with currentSubmission :=
      { w.currentSubmission with shareData :=
        { w.currentSubmission.shareData with
          uniqueGroups := w.currentSubmission.shareData.uniqueGroups.add
            ("debug-group-" ++ toString now) } } }
    (saveData w1).andThen fun w2 => updateProgressUI w2 rnd
  else done w

/-! ## Form submission (script.js 177-273) -/

/-- Values of the form fields at submission; `walletAmount` is the value of
`parseFloat` on the field text (NaN when it reads no number, an infinity for a text
such as "Infinity" or "1e999"). -/
structure FormElements where
  playerId : String
  playerName : String
  region : String
  membership : String
  walletAmount : JsDouble
  currency : String
  agreeTerms : Bool

/-- The expression `parseFloat(form.elements['walletAmount'].value) || 0`. -/
def walletAmountOf (form : FormElements) : JsDouble :=
  form.walletAmount.orZero

/-- The test of the pattern `^\d{6,12}$`. -/
def isPlayerId (s : String) : Bool :=
  decide (6 ≤ s.length) && decide (s.length ≤ 12) && s.data.all Char.isDigit

/-- The messages `validateForm` writes, in the order of its six checks. -/
def validationErrors (form : FormElements) : List String :=
  (if !isPlayerId (trim form.playerId) then ["Player ID must be 6 to 12 digits."] else []) ++
  (if trim form.playerName = "" then ["Player Name is required."] else []) ++
  (if form.region = "" then ["Region selection is required."] else []) ++
  (if form.membership = "" then ["Membership selection is required."] else []) ++
  (if (walletAmountOf form).isNegative then ["Wallet amount cannot be negative."]
   else []) ++
  (if !form.agreeTerms then ["You must agree to the Terms & Conditions."] else [])

/-- Function `validateForm` (script.js 177-227): the state with the error
texts replaced, and `isValid`. -/
def validateForm (w : World) (form : FormElements) : World × Bool :=
  ({ w with ui := { w.ui with formErrors := validationErrors form } },
   (validationErrors form).isEmpty)

/-- Function `switchPage` (script.js 262-273). -/
def switchPage (w : World) (pageId : String) : World :=
  { w with ui := { w.ui with activePage := pageId } }

/-- Function `handleFormSubmit` (script.js 232-256).  The argument `freshId`
is the value of `Date.now().toString(36) + Math.random().toString(36).substr(2)`;
`displaySummary` only renders. -/
def handleFormSubmit (w : World) (form : FormElements) (freshId : String)
    (rnd : RandomSource) : Outcome :=
  let v := validateForm w form
  if v.2 then
    let cur := v.1.currentSubmission
    let w1 : World := { v.1 with currentSubmission :=
      { cur with
        id := if truthy cur.id then cur.id else some freshId,
        playerId := some (trim form.playerId),
        playerName := some (trim form.playerName),
        region := some form.region,
        membership := some form.membership,
        walletAmount := some (walletAmountOf form),
        currency := form.currency } }
    ((saveData w1).andThen fun w2 => updateProgressUI w2 rnd).andThen fun w3 =>
      done (switchPage w3 "page-share")
  else
    done { v.1 with ui :=
      { v.1.ui with alerts := v.1.ui.alerts ++ ["Please correct the errors in the form."] } }

/-! ## Events of a session -/

/-- What can happen to the page after it has loaded. -/
inductive Event where
  | formSubmit (form : FormElements) (freshId : String) (rnd : RandomSource)
  | typeGroupName (text : String)
  | manualShareClick (now : Int) (rnd : RandomSource)
  | shareAttempt (groupName : String) (now : Int) (rnd : RandomSource)
  | debugShare (rnd : RandomSource)
  | debugGroup (now : Int) (rnd : RandomSource)
  | unlockCheck (rnd : RandomSource)

/-- The handler run for one event. -/
def step (P : Platform) (w : World) : Event → Outcome
  | Event.formSubmit form freshId rnd => handleFormSubmit w form freshId rnd
  | Event.typeGroupName text => done { w with ui := { w.ui with groupName := text } }
  | Event.manualShareClick now rnd => handleManualShareClick P w now rnd
  | Event.shareAttempt groupName now rnd => incrementShare P w groupName now rnd
  | Event.debugShare rnd => debugShareClick w rnd
  | Event.debugGroup now rnd => debugGroupClick w now rnd
  | Event.unlockCheck rnd => updateProgressUI w rnd

/-- The state after a sequence of events; an exception ends its handler only. -/
def run (P : Platform) (w : World) (events : List Event) : World :=
  events.foldl (fun st e => (step P st e).world) w

/-- The DOM before any handler has run. -/
def initialUI : UI :=
  { errorShareGroup := "", groupName := "", progressGroups := 0, progressTotal := 0,
    keyOutput := "", modalHidden := true, whatsappShareDisabled := false,
    manualShareDisabled := false, activePage := "page-form", formErrors := [],
    alerts := [] }

/-- The state at script load: the record literal, any storage, the initial DOM. -/
def initialWorld (t0 : Int) (st : Storage) : World :=
  { currentSubmission := initialSubmission t0, localStorage := st, ui := initialUI }

/-- The counters of a record are within their caps. -/
def withinCaps (c : Submission) : Prop :=
  0 ≤ c.shareData.totalShares ∧
  c.shareData.totalShares ≤ MAX_TOTAL_SHARES ∧
  c.shareData.uniqueGroups.size ≤ MAX_UNIQUE_GROUPS

/-- The record passed to `saveData` by a counted attempt (script.js 344-359). -/
def stampedRecord (P : Platform) (w : World) (groupName : String) (now : Int) :
    Submission :=
  let c := (countShare P w groupName).currentSubmission
  { c with shareData := { c.shareData with lastShareTimestamp := now } }

/-- The record after `saveData(); updateProgressUI();` run on the record `c`. -/
def afterUnlockCheck (c : Submission) (rnd : RandomSource) : Submission :=
  if c.shareData.uniqueGroups.size ≥ MAX_UNIQUE_GROUPS ∧
      c.shareData.totalShares ≥ MAX_TOTAL_SHARES ∧ truthy c.winKey = false
  then { c with winKey := some (generateKey rnd) }
  else c

/-- A key that is set was generated with both caps reached. -/
def keyImpliesCaps (c : Submission) : Prop :=
  truthy c.winKey = true →
    MAX_TOTAL_SHARES ≤ c.shareData.totalShares ∧
    MAX_UNIQUE_GROUPS ≤ c.shareData.uniqueGroups.size

/-- Invariant of a session: counters within caps, and a set key implies both caps. -/
def recordInv (c : Submission) : Prop := withinCaps c ∧ keyImpliesCaps c

/-- A key segment: four characters of the alphabet `chars`. -/
def isSegment (s : String) : Prop := s.length = 4 ∧ ∀ c ∈ s.data, c ∈ chars.data

/-- A key is either absent or a non-empty string. -/
def keyWellFormed (c : Submission) : Prop :=
  c.winKey ≠ none → truthy c.winKey = true

/-- No element of `uniqueGroups` is the empty string. -/
def groupsNonEmpty (c : Submission) : Prop :=
  ∀ g ∈ c.shareData.uniqueGroups.items, g ≠ ""

/-- Lower-casing of the letters A-Z, the part of `toLowerCase` used in examples. -/
def asciiPlatform : Platform :=
  { toLowerCase := fun s => String.mk (s.data.map Char.toLower) }

/-- An empty storage. -/
def emptyStorage : Storage :=
  { formData := Stored.absent, shareData := Stored.absent, submissions := Stored.absent }

/-- A random source whose bytes are all zero. -/
def zeroBytes : RandomSource := RandomSource.crypto (fun _ => 0)

/-! ## Sample states and the eighteen-attempt scenario -/

/-- A page just loaded at time 0 over an empty storage. -/
def freshWorld : World := initialWorld 0 emptyStorage

/-- Labels of the scenario: eight distinct groups, then ten repeats of the first. -/
def scenarioLabels : List String :=
  ["A", "B", "C", "D", "E", "F", "G", "H",
   "A", "A", "A", "A", "A", "A", "A", "A", "A", "A"]

/-- The attempts of the scenario, 6000 ms apart, the first at 6000 ms. -/
def scenarioEvents : List Event :=
  scenarioLabels.enum.map
    (fun p => Event.shareAttempt p.2 (Int.ofNat (6000 * (p.1 + 1))) zeroBytes)

/-- A random source whose bytes are all one. -/
def oneBytes : RandomSource := RandomSource.crypto (fun _ => 1)

/-- A record with both caps reached and no key, as `loadData` can produce it. -/
def cappedWorld : World :=
  { freshWorld with currentSubmission :=
    { initialSubmission 0 with shareData :=
      { totalShares := 18,
        uniqueGroups := StrSet.ofArray ["a", "b", "c", "d", "e", "f", "g", "h"],
        lastShareTimestamp := 108000 } } }

/-- A record with the total cap reached and a single group counted. -/
def totalCappedWorld : World :=
  { freshWorld with currentSubmission :=
    { initialSubmission 0 with shareData :=
      { totalShares := 18,
        uniqueGroups := StrSet.ofArray ["a"],
        lastShareTimestamp := 108000 } } }

/-! ## The log update, the byte-to-symbol map, and sample storages -/

/-- The array `submissions` after script.js 153-159, for the entry `logEntry`. -/
def upsertEntry (logEntry : LogEntry) (submissions : List LogEntry) : List LogEntry :=
  match findIndex (fun s => decide (s.id = logEntry.id)) submissions with
  | some i => submissions.set i logEntry
  | none => submissions ++ [logEntry]

/-- The character `chars[randomBytes[i] % chars.length]` of script.js 454, for the
byte `b` that `getRandomValues` put into the cell `randomBytes[i]`. -/
def symbolAt (b : Nat) : Char := chars.data.getD (b % 256 % chars.length) 'A'

/-- Number of cell values 0..255 that script.js 454 maps to the character `c`. -/
def bytesGiving (c : Char) : Nat :=
  ((List.range 256).filter (fun b => decide (symbolAt b = c))).length

/-- A share cell as `saveData` writes it. -/
def sampleShareBlob : ShareBlob :=
  { totalShares := 5, uniqueGroups := ["a", "b"], lastShareTimestamp := 1000 }

/-- A form cell as `saveData` writes it. -/
def sampleFormBlob : FormBlob :=
  { id := some "k3x9", playerId := some "1234567", playerName := some "Nima",
    region := some "LK", membership := some "Weekly",
    walletAmount := some (JsDouble.finite 250),
    currency := "LKR", winKey := none, timestamp := 1700000000000 }

/-- A storage whose form cell is not JSON text and whose share cell is well formed. -/
def corruptFormStorage : Storage :=
  { formData := Stored.text "not json", shareData := Stored.json sampleShareBlob,
    submissions := Stored.absent }

/-- A storage whose share cell is not JSON text and whose form cell is well formed. -/
def corruptShareStorage : Storage :=
  { formData := Stored.json sampleFormBlob, shareData := Stored.text "not json",
    submissions := Stored.absent }

/-- A log of two submissions with distinct ids. -/
def sampleLog : List LogEntry :=
  [ { id := some "k3x9", playerId := some "1234567", membership := some "Weekly",
      winKey := none, totalShares := 3, uniqueGroups := 2, timestamp := 1700000000000 },
    { id := some "z7q1", playerId := some "7654321", membership := some "Monthly",
      winKey := some "FF-AAAA-AAAA-AAAA-AAAA", totalShares := 18, uniqueGroups := 8,
      timestamp := 1700000005000 } ]

/-- A keyed record whose id is the first of `sampleLog`, over a storage holding that log. -/
def keyedWorld : World :=
  { currentSubmission :=
      { initialSubmission 1700000000000 with
          id := some "k3x9", playerId := some "1234567", membership := some "Weekly",
          winKey := some "FF-BBBB-BBBB-BBBB-BBBB",
          shareData := cappedWorld.currentSubmission.shareData },
    localStorage := { emptyStorage with submissions := Stored.json sampleLog },
    ui := initialUI }

/-- A valid form whose wallet field holds the text "1e999", which `parseFloat` reads
as Infinity. -/
def infinityForm : FormElements :=
  { playerId := "1234567", playerName := "Nima", region := "LK", membership := "Weekly",
    walletAmount := JsDouble.posInfinity, currency := "LKR", agreeTerms := true }

/-- A record whose wallet amount is 12.5. -/
def decimalWorld : World :=
  { freshWorld with currentSubmission :=
    { initialSubmission 0 with walletAmount := some (JsDouble.finite (25 / 2)) } }

end Giveaway

namespace Giveaway

/-! ## Frame lemmas for the storage functions -/

theorem andThen_done (w : World) (f : World → Outcome) :
    (done w).andThen f = f w := rfl

theorem updateSubmissionLog_record (w : World) :
    (updateSubmissionLog w).world.currentSubmission = w.currentSubmission := by
  unfold updateSubmissionLog
  split <;> rfl

theorem updateSubmissionLog_formData (w : World) :
    (updateSubmissionLog w).world.localStorage.formData = w.localStorage.formData := by
  unfold updateSubmissionLog
  split <;> rfl

theorem updateSubmissionLog_shareData (w : World) :
    (updateSubmissionLog w).world.localStorage.shareData = w.localStorage.shareData := by
  unfold updateSubmissionLog
  split <;> rfl

theorem saveData_record (w : World) :
    (saveData w).world.currentSubmission = w.currentSubmission := by
  by_cases h : truthy w.currentSubmission.winKey = true <;>
    simp [saveData, h, updateSubmissionLog_record, done]

theorem saveData_formData (w : World) :
    (saveData w).world.localStorage.formData = Stored.json (formBlobOf w.currentSubmission) := by
  by_cases h : truthy w.currentSubmission.winKey = true <;>
    simp [saveData, h, updateSubmissionLog_formData, done]

theorem saveData_shareData (w : World) :
    (saveData w).world.localStorage.shareData = Stored.json (shareBlobOf w.currentSubmission) := by
  by_cases h : truthy w.currentSubmission.winKey = true <;>
    simp [saveData, h, updateSubmissionLog_shareData, done]

theorem andThen_record (o : Outcome) (f : World → Outcome)
    (h : ∀ w, (f w).world.currentSubmission = w.currentSubmission) :
    (o.andThen f).world.currentSubmission = o.world.currentSubmission := by
  unfold Outcome.andThen
  split
  · exact h _
  · rfl

theorem unlockMembershipKey_record (w : World) (rnd : RandomSource) :
    (unlockMembershipKey w rnd).world.currentSubmission =
      if truthy w.currentSubmission.winKey then w.currentSubmission
      else { w.currentSubmission with winKey := some (generateKey rnd) } := by
  unfold unlockMembershipKey
  rw [andThen_record _ _ (fun w1 => by rw [updateSubmissionLog_record])]
  by_cases h : truthy w.currentSubmission.winKey = true
  · simp [h, done]
  · simp [h, saveData_record]

theorem updateProgressUI_record (w : World) (rnd : RandomSource) :
    (updateProgressUI w rnd).world.currentSubmission =
      if w.currentSubmission.shareData.uniqueGroups.size ≥ MAX_UNIQUE_GROUPS ∧
          w.currentSubmission.shareData.totalShares ≥ MAX_TOTAL_SHARES ∧
          truthy w.currentSubmission.winKey = false
      then { w.currentSubmission with winKey := some (generateKey rnd) }
      else w.currentSubmission := by
  unfold updateProgressUI
  by_cases hc : w.currentSubmission.shareData.uniqueGroups.size ≥ MAX_UNIQUE_GROUPS ∧
      w.currentSubmission.shareData.totalShares ≥ MAX_TOTAL_SHARES
  · by_cases hk : truthy w.currentSubmission.winKey = true
    · simp [hc, hk, unlockMembershipKey_record]
    · simp [hc, hk, unlockMembershipKey_record]
  · have hc2 : ¬ (w.currentSubmission.shareData.uniqueGroups.size ≥ MAX_UNIQUE_GROUPS ∧
        w.currentSubmission.shareData.totalShares ≥ MAX_TOTAL_SHARES ∧
        truthy w.currentSubmission.winKey = false) := fun h => hc ⟨h.1, h.2.1⟩
    rw [if_neg hc, if_neg hc2]
    rfl

theorem updateProgressUI_eq_afterUnlockCheck (w : World) (rnd : RandomSource) :
    (updateProgressUI w rnd).world.currentSubmission =
      afterUnlockCheck w.currentSubmission rnd :=
  updateProgressUI_record w rnd

theorem saveData_error_key (w : World) (h : (saveData w).error ≠ none) :
    truthy w.currentSubmission.winKey = true := by
  by_cases hk : truthy w.currentSubmission.winKey = true
  · exact hk
  · exfalso
    apply h
    simp [saveData, hk, done]

theorem afterUnlockCheck_of_key (c : Submission) (rnd : RandomSource)
    (h : truthy c.winKey = true) : afterUnlockCheck c rnd = c := by
  simp [afterUnlockCheck, h]

/-- The pair `saveData(); updateProgressUI();` acts on the record as
`afterUnlockCheck`, also when `saveData` throws. -/
theorem save_then_progress_record (w : World) (rnd : RandomSource) :
    ((saveData w).andThen fun w3 => updateProgressUI w3 rnd).world.currentSubmission =
      afterUnlockCheck w.currentSubmission rnd := by
  unfold Outcome.andThen
  split
  · rw [updateProgressUI_eq_afterUnlockCheck, saveData_record]
  · next e he =>
    rw [saveData_record]
    have hk := saveData_error_key w (by rw [he]; exact Option.some_ne_none e)
    rw [afterUnlockCheck_of_key _ _ hk]

theorem afterUnlockCheck_shareData (c : Submission) (rnd : RandomSource) :
    (afterUnlockCheck c rnd).shareData = c.shareData := by
  unfold afterUnlockCheck
  split <;> rfl

namespace StrSet

theorem ext_items {s t : StrSet} (h : s.items = t.items) : s = t := by
  cases s; cases t; cases h; rfl

theorem add_of_mem {s : StrSet} {x : String} (h : x ∈ s.items) : s.add x = s := by
  simp [add, h]

theorem items_add_of_not_mem {s : StrSet} {x : String} (h : x ∉ s.items) :
    (s.add x).items = s.items ++ [x] := by
  simp [add, h]

theorem size_add_le (s : StrSet) (x : String) : (s.add x).size ≤ s.size + 1 := by
  by_cases h : x ∈ s.items
  · rw [add_of_mem h]; exact Nat.le_succ _
  · simp [size, items_add_of_not_mem h]

theorem size_le_add (s : StrSet) (x : String) : s.size ≤ (s.add x).size := by
  by_cases h : x ∈ s.items
  · rw [add_of_mem h]
  · simp [size, items_add_of_not_mem h]

theorem foldl_add_items (xs : List String) :
    ∀ acc : StrSet, (acc.items ++ xs).Nodup →
      (xs.foldl add acc).items = acc.items ++ xs := by
  induction xs with
  | nil => intro acc _; simp
  | cons x rest ih =>
    intro acc hnd
    have hx : x ∉ acc.items := by
      intro hmem
      have := List.nodup_append.mp hnd
      exact this.2.2 hmem (List.mem_cons_self x rest)
    have hitems : (acc.add x).items = acc.items ++ [x] := items_add_of_not_mem hx
    have hnd2 : ((acc.add x).items ++ rest).Nodup := by
      rw [hitems]; simpa using hnd
    rw [List.foldl_cons, ih (acc.add x) hnd2, hitems]
    simp

/-- A set rebuilt from its own array is the same set: `new Set(Array.from(s))`. -/
theorem ofArray_toArray (s : StrSet) : ofArray s.toArray = s := by
  apply ext_items
  unfold ofArray toArray
  rw [foldl_add_items s.items empty (by simpa [empty] using s.nodup)]
  simp [empty]

end StrSet

/-! ## Lemmas on `incrementShare` -/

theorem andThen_shareCell (o : Outcome) (f : World → Outcome)
    (h : ∀ w, (f w).world.localStorage.shareData = w.localStorage.shareData) :
    (o.andThen f).world.localStorage.shareData = o.world.localStorage.shareData := by
  unfold Outcome.andThen
  split
  · exact h _
  · rfl

theorem unlockMembershipKey_shareCell (w : World) (rnd : RandomSource) :
    (unlockMembershipKey w rnd).world.localStorage.shareData =
      if truthy w.currentSubmission.winKey then w.localStorage.shareData
      else Stored.json (shareBlobOf w.currentSubmission) := by
  unfold unlockMembershipKey
  rw [andThen_shareCell _ _ (fun w1 => by rw [updateSubmissionLog_shareData])]
  by_cases h : truthy w.currentSubmission.winKey = true
  · simp [h, done]
  · simp [h, saveData_shareData, shareBlobOf]

theorem updateProgressUI_shareCell (w : World) (rnd : RandomSource)
    (h : w.localStorage.shareData = Stored.json (shareBlobOf w.currentSubmission)) :
    (updateProgressUI w rnd).world.localStorage.shareData =
      Stored.json (shareBlobOf w.currentSubmission) := by
  unfold updateProgressUI
  by_cases hc : w.currentSubmission.shareData.uniqueGroups.size ≥ MAX_UNIQUE_GROUPS ∧
      w.currentSubmission.shareData.totalShares ≥ MAX_TOTAL_SHARES
  · by_cases hk : truthy w.currentSubmission.winKey = true
    · simp [hc, hk, unlockMembershipKey_shareCell, h]
    · simp [hc, hk, unlockMembershipKey_shareCell]
  · rw [if_neg hc]
    exact h

theorem save_then_progress_shareCell (w : World) (rnd : RandomSource) :
    ((saveData w).andThen fun w3 => updateProgressUI w3 rnd).world.localStorage.shareData =
      Stored.json (shareBlobOf w.currentSubmission) := by
  unfold Outcome.andThen
  split
  · have h := updateProgressUI_shareCell (saveData w).world rnd
      (by rw [saveData_shareData, saveData_record])
    rw [h, saveData_record]
  · exact saveData_shareData w

theorem incrementShare_rejected (P : Platform) (w : World) (groupName : String)
    (now : Int) (rnd : RandomSource)
    (h : now - w.currentSubmission.shareData.lastShareTimestamp < MIN_SHARE_TIME_MS) :
    incrementShare P w groupName now rnd =
      done (setShareError w "Please wait 5 seconds between shares.") := by
  unfold incrementShare
  rw [if_pos h]

theorem incrementShare_counted_record (P : Platform) (w : World) (groupName : String)
    (now : Int) (rnd : RandomSource)
    (hgate : ¬ now - w.currentSubmission.shareData.lastShareTimestamp < MIN_SHARE_TIME_MS)
    (hc : (countedAsTotal w || countedAsUnique P w groupName) = true) :
    (incrementShare P w groupName now rnd).world.currentSubmission =
      afterUnlockCheck (stampedRecord P w groupName now) rnd := by
  unfold incrementShare
  rw [if_neg hgate]
  have hc2 : (countedAsTotal (setShareError w "") ||
      countedAsUnique P (setShareError w "") groupName) = true := hc
  simp only [hc2, if_true]
  rw [andThen_record _ _ (fun _ => rfl), save_then_progress_record]
  rfl

theorem incrementShare_counted_shareCell (P : Platform) (w : World) (groupName : String)
    (now : Int) (rnd : RandomSource)
    (hgate : ¬ now - w.currentSubmission.shareData.lastShareTimestamp < MIN_SHARE_TIME_MS)
    (hc : (countedAsTotal w || countedAsUnique P w groupName) = true) :
    (incrementShare P w groupName now rnd).world.localStorage.shareData =
      Stored.json (shareBlobOf (stampedRecord P w groupName now)) := by
  unfold incrementShare
  rw [if_neg hgate]
  have hc2 : (countedAsTotal (setShareError w "") ||
      countedAsUnique P (setShareError w "") groupName) = true := hc
  simp only [hc2, if_true]
  rw [andThen_shareCell _ _ (fun _ => rfl), save_then_progress_shareCell]
  rfl

theorem countShare_uncounted (P : Platform) (w : World) (groupName : String)
    (hc : (countedAsTotal w || countedAsUnique P w groupName) = false) :
    countShare P w groupName = w := by
  have h1 : countedAsTotal w = false := by
    cases h : countedAsTotal w <;> simp_all
  have h2 : countedAsUnique P w groupName = false := by
    cases h : countedAsUnique P w groupName <;> simp_all
  simp [countShare, h1, h2]

theorem incrementShare_uncounted (P : Platform) (w : World) (groupName : String)
    (now : Int) (rnd : RandomSource)
    (hgate : ¬ now - w.currentSubmission.shareData.lastShareTimestamp < MIN_SHARE_TIME_MS)
    (hc : (countedAsTotal w || countedAsUnique P w groupName) = false) :
    (incrementShare P w groupName now rnd).world.currentSubmission = w.currentSubmission ∧
    (incrementShare P w groupName now rnd).world.localStorage = w.localStorage ∧
    (incrementShare P w groupName now rnd).error = none := by
  unfold incrementShare
  rw [if_neg hgate]
  have hc2 : (countedAsTotal (setShareError w "") ||
      countedAsUnique P (setShareError w "") groupName) = false := hc
  have hcs : countShare P (setShareError w "") groupName = setShareError w "" :=
    countShare_uncounted P _ groupName hc2
  simp only [hc2, hcs, Bool.false_eq_true, if_false]
  refine ⟨?_, ?_, ?_⟩ <;> split <;> rfl

theorem stampedRecord_totalShares (P : Platform) (w : World) (groupName : String)
    (now : Int) :
    (stampedRecord P w groupName now).shareData.totalShares =
      if w.currentSubmission.shareData.totalShares < MAX_TOTAL_SHARES
      then w.currentSubmission.shareData.totalShares + 1
      else w.currentSubmission.shareData.totalShares := by
  unfold stampedRecord countShare countedAsTotal
  by_cases ht : w.currentSubmission.shareData.totalShares < MAX_TOTAL_SHARES
  · by_cases hu : countedAsUnique P w groupName = true <;> simp [ht, hu]
  · by_cases hu : countedAsUnique P w groupName = true <;> simp [ht, hu]

theorem stampedRecord_uniqueGroups (P : Platform) (w : World) (groupName : String)
    (now : Int) :
    (stampedRecord P w groupName now).shareData.uniqueGroups =
      if countedAsUnique P w groupName
      then w.currentSubmission.shareData.uniqueGroups.add (normalizedGroup P groupName)
      else w.currentSubmission.shareData.uniqueGroups := by
  unfold stampedRecord countShare
  by_cases ht : countedAsTotal w = true
  · by_cases hu : countedAsUnique P w groupName = true <;> simp [ht, hu]
  · by_cases hu : countedAsUnique P w groupName = true <;> simp [ht, hu]

theorem stampedRecord_lastShareTimestamp (P : Platform) (w : World) (groupName : String)
    (now : Int) :
    (stampedRecord P w groupName now).shareData.lastShareTimestamp = now := rfl

theorem stampedRecord_winKey (P : Platform) (w : World) (groupName : String)
    (now : Int) :
    (stampedRecord P w groupName now).winKey = w.currentSubmission.winKey := rfl

theorem countedAsUnique_iff (P : Platform) (w : World) (groupName : String) :
    countedAsUnique P w groupName = true ↔
      (normalizedGroup P groupName ≠ "" ∧
       normalizedGroup P groupName ∉ w.currentSubmission.shareData.uniqueGroups.items ∧
       w.currentSubmission.shareData.uniqueGroups.size < MAX_UNIQUE_GROUPS) := by
  simp [countedAsUnique, StrSet.has]
  tauto

theorem countedAsTotal_iff (w : World) :
    countedAsTotal w = true ↔
      w.currentSubmission.shareData.totalShares < MAX_TOTAL_SHARES := by
  simp [countedAsTotal]

/-- The share data after an attempt that passes the rate gate. -/
theorem incrementShare_shareData (P : Platform) (w : World) (groupName : String)
    (now : Int) (rnd : RandomSource)
    (hgate : ¬ now - w.currentSubmission.shareData.lastShareTimestamp < MIN_SHARE_TIME_MS) :
    (incrementShare P w groupName now rnd).world.currentSubmission.shareData.totalShares =
      (if w.currentSubmission.shareData.totalShares < MAX_TOTAL_SHARES
       then w.currentSubmission.shareData.totalShares + 1
       else w.currentSubmission.shareData.totalShares) ∧
    (incrementShare P w groupName now rnd).world.currentSubmission.shareData.uniqueGroups =
      (if countedAsUnique P w groupName
       then w.currentSubmission.shareData.uniqueGroups.add (normalizedGroup P groupName)
       else w.currentSubmission.shareData.uniqueGroups) := by
  cases hc : (countedAsTotal w || countedAsUnique P w groupName)
  · have h := (incrementShare_uncounted P w groupName now rnd hgate hc).1
    have h1 : countedAsTotal w = false := by
      cases h : countedAsTotal w <;> simp_all
    have h2 : countedAsUnique P w groupName = false := by
      cases h : countedAsUnique P w groupName <;> simp_all
    have h3 : ¬ w.currentSubmission.shareData.totalShares < MAX_TOTAL_SHARES := by
      intro hlt
      rw [(countedAsTotal_iff w).mpr hlt] at h1
      exact Bool.noConfusion h1
    rw [h, if_neg h3, h2]
    exact ⟨rfl, rfl⟩
  · rw [incrementShare_counted_record P w groupName now rnd hgate hc,
      afterUnlockCheck_shareData, stampedRecord_totalShares, stampedRecord_uniqueGroups]
    exact ⟨rfl, rfl⟩

/-! ## The share engine: rate gate, counting, commit -/

/-- C2: an attempt made less than 5000 ms after `lastShareTimestamp` is rejected and
changes neither the record (totalShares, uniqueGroups, lastShareTimestamp, winKey and
all other fields) nor the persisted cells; in particular, after an attempt counted at
time `now`, every attempt at a time `t2` with `t2 - now < 5000` is rejected and leaves
the record and the storage as the counted attempt left them. -/
theorem rate_gate_rejects_without_change (P : Platform) (w : World) (groupName : String)
    (now : Int) (rnd : RandomSource) :
    (now - w.currentSubmission.shareData.lastShareTimestamp < 5000 →
      (incrementShare P w groupName now rnd).world.currentSubmission = w.currentSubmission ∧
      (incrementShare P w groupName now rnd).world.localStorage = w.localStorage ∧
      (incrementShare P w groupName now rnd).world.ui.errorShareGroup =
        "Please wait 5 seconds between shares.") ∧
    (¬ now - w.currentSubmission.shareData.lastShareTimestamp < 5000 →
      (countedAsTotal w || countedAsUnique P w groupName) = true →
      ∀ (label2 : String) (t2 : Int) (rnd2 : RandomSource), t2 - now < 5000 →
        (incrementShare P (incrementShare P w groupName now rnd).world label2 t2 rnd2
            ).world.currentSubmission =
          (incrementShare P w groupName now rnd).world.currentSubmission ∧
        (incrementShare P (incrementShare P w groupName now rnd).world label2 t2 rnd2
            ).world.localStorage =
          (incrementShare P w groupName now rnd).world.localStorage) := by
  constructor
  · intro h
    rw [incrementShare_rejected P w groupName now rnd h]
    exact ⟨rfl, rfl, rfl⟩
  · intro hgate hc label2 t2 rnd2 ht
    have hlast : (incrementShare P w groupName now rnd).world.currentSubmission.shareData.lastShareTimestamp
        = now := by
      rw [incrementShare_counted_record P w groupName now rnd hgate hc,
        afterUnlockCheck_shareData]
      rfl
    have hrej : t2 - (incrementShare P w groupName now rnd
        ).world.currentSubmission.shareData.lastShareTimestamp < MIN_SHARE_TIME_MS := by
      rw [hlast]; exact ht
    rw [incrementShare_rejected P _ label2 t2 rnd2 hrej]
    exact ⟨rfl, rfl⟩

/-- C3: an attempt that passes the rate gate adds exactly 1 to totalShares when
totalShares < 18 and leaves it unchanged otherwise, whatever the label; a label whose
normalized form is already in uniqueGroups leaves uniqueGroups (hence its size)
unchanged and still adds 1 to totalShares under the cap. -/
theorem total_counts_whatever_the_label (P : Platform) (w : World) (groupName : String)
    (now : Int) (rnd : RandomSource)
    (hgate : ¬ now - w.currentSubmission.shareData.lastShareTimestamp < 5000) :
    (incrementShare P w groupName now rnd).world.currentSubmission.shareData.totalShares =
      (if w.currentSubmission.shareData.totalShares < 18
       then w.currentSubmission.shareData.totalShares + 1
       else w.currentSubmission.shareData.totalShares) ∧
    (normalizedGroup P groupName ∈ w.currentSubmission.shareData.uniqueGroups.items →
      (incrementShare P w groupName now rnd).world.currentSubmission.shareData.uniqueGroups.size =
        w.currentSubmission.shareData.uniqueGroups.size ∧
      (w.currentSubmission.shareData.totalShares < 18 →
        (incrementShare P w groupName now rnd).world.currentSubmission.shareData.totalShares =
          w.currentSubmission.shareData.totalShares + 1)) := by
  have h := incrementShare_shareData P w groupName now rnd hgate
  refine ⟨h.1, ?_⟩
  intro hmem
  constructor
  · have hu : countedAsUnique P w groupName = false := by
      cases hcu : countedAsUnique P w groupName
      · rfl
      · exact absurd hmem ((countedAsUnique_iff P w groupName).mp hcu).2.1
    rw [h.2, hu]
    rfl
  · intro hlt
    rw [h.1]
    exact if_pos hlt

/-- C5: an attempt that passes the rate gate and counts toward the total or toward
uniqueness sets lastShareTimestamp to `now` and leaves in the share cell the new
totalShares, uniqueGroups and lastShareTimestamp; one that counts toward neither
leaves the whole record and the whole storage unchanged; one stopped by the rate gate
leaves lastShareTimestamp unchanged. -/
theorem commit_only_when_counted (P : Platform) (w : World) (groupName : String)
    (now : Int) (rnd : RandomSource) :
    (¬ now - w.currentSubmission.shareData.lastShareTimestamp < 5000 →
      (countedAsTotal w || countedAsUnique P w groupName) = true →
      (incrementShare P w groupName now rnd
        ).world.currentSubmission.shareData.lastShareTimestamp = now ∧
      (incrementShare P w groupName now rnd).world.localStorage.shareData =
        Stored.json
          { totalShares := (incrementShare P w groupName now rnd
              ).world.currentSubmission.shareData.totalShares,
            uniqueGroups := (incrementShare P w groupName now rnd
              ).world.currentSubmission.shareData.uniqueGroups.toArray,
            lastShareTimestamp := now }) ∧
    (¬ now - w.currentSubmission.shareData.lastShareTimestamp < 5000 →
      (countedAsTotal w || countedAsUnique P w groupName) = false →
      (incrementShare P w groupName now rnd).world.currentSubmission = w.currentSubmission ∧
      (incrementShare P w groupName now rnd).world.localStorage = w.localStorage) ∧
    (now - w.currentSubmission.shareData.lastShareTimestamp < 5000 →
      (incrementShare P w groupName now rnd
        ).world.currentSubmission.shareData.lastShareTimestamp =
        w.currentSubmission.shareData.lastShareTimestamp ∧
      (incrementShare P w groupName now rnd).world.localStorage = w.localStorage) := by
  refine ⟨?_, ?_, ?_⟩
  · intro hgate hc
    rw [incrementShare_counted_shareCell P w groupName now rnd hgate hc,
      incrementShare_counted_record P w groupName now rnd hgate hc,
      afterUnlockCheck_shareData]
    exact ⟨rfl, rfl⟩
  · intro hgate hc
    have h := incrementShare_uncounted P w groupName now rnd hgate hc
    exact ⟨h.1, h.2.1⟩
  · intro h
    rw [incrementShare_rejected P w groupName now rnd h]
    exact ⟨rfl, rfl⟩

/-! ## Invariants of a session -/

theorem recordInv_congr {c d : Submission} (hs : d.shareData = c.shareData)
    (hk : d.winKey = c.winKey) (h : recordInv c) : recordInv d := by
  unfold recordInv withinCaps keyImpliesCaps at *
  rw [hs, hk]
  exact h

theorem recordInv_initial (t0 : Int) : recordInv (initialSubmission t0) := by
  unfold recordInv withinCaps keyImpliesCaps
  simp [initialSubmission, MAX_TOTAL_SHARES, StrSet.size, StrSet.empty, truthy]

theorem afterUnlockCheck_inv (c : Submission) (rnd : RandomSource) (h : recordInv c) :
    recordInv (afterUnlockCheck c rnd) := by
  unfold afterUnlockCheck
  split
  · next hc =>
    refine ⟨h.1, ?_⟩
    intro _
    exact ⟨hc.2.1, hc.1⟩
  · exact h

theorem stampedRecord_inv (P : Platform) (w : World) (groupName : String) (now : Int)
    (h : recordInv w.currentSubmission) :
    recordInv (stampedRecord P w groupName now) := by
  obtain ⟨⟨h0, h18, h8⟩, hkey⟩ := h
  have ht := stampedRecord_totalShares P w groupName now
  have hu := stampedRecord_uniqueGroups P w groupName now
  have hsize : w.currentSubmission.shareData.uniqueGroups.size ≤
      (stampedRecord P w groupName now).shareData.uniqueGroups.size ∧
      (stampedRecord P w groupName now).shareData.uniqueGroups.size ≤ MAX_UNIQUE_GROUPS := by
    rw [hu]
    cases hcu : countedAsUnique P w groupName
    · exact ⟨le_refl _, h8⟩
    · have hlt := ((countedAsUnique_iff P w groupName).mp hcu).2.2
      have h1 := StrSet.size_add_le w.currentSubmission.shareData.uniqueGroups
        (normalizedGroup P groupName)
      have h2 := StrSet.size_le_add w.currentSubmission.shareData.uniqueGroups
        (normalizedGroup P groupName)
      simp only [if_true]
      exact ⟨h2, by omega⟩
  have htot : w.currentSubmission.shareData.totalShares ≤
      (stampedRecord P w groupName now).shareData.totalShares ∧
      (stampedRecord P w groupName now).shareData.totalShares ≤ MAX_TOTAL_SHARES := by
    rw [ht]
    unfold MAX_TOTAL_SHARES at *
    split <;> constructor <;> omega
  refine ⟨⟨le_trans h0 htot.1, htot.2, hsize.2⟩, ?_⟩
  intro hk
  rw [stampedRecord_winKey] at hk
  have hc := hkey hk
  exact ⟨le_trans hc.1 htot.1, le_trans hc.2 hsize.1⟩

theorem incrementShare_inv (P : Platform) (w : World) (groupName : String) (now : Int)
    (rnd : RandomSource) (h : recordInv w.currentSubmission) :
    recordInv (incrementShare P w groupName now rnd).world.currentSubmission := by
  by_cases hgate : now - w.currentSubmission.shareData.lastShareTimestamp < MIN_SHARE_TIME_MS
  · rw [incrementShare_rejected P w groupName now rnd hgate]
    exact h
  · cases hc : (countedAsTotal w || countedAsUnique P w groupName)
    · rw [(incrementShare_uncounted P w groupName now rnd hgate hc).1]
      exact h
    · rw [incrementShare_counted_record P w groupName now rnd hgate hc]
      exact afterUnlockCheck_inv _ _ (stampedRecord_inv P w groupName now h)

theorem debugShareClick_record (w : World) (rnd : RandomSource) :
    (debugShareClick w rnd).world.currentSubmission =
      if w.currentSubmission.shareData.totalShares < MAX_TOTAL_SHARES then
        afterUnlockCheck { w.currentSubmission with shareData :=
          { w.currentSubmission.shareData with
            totalShares := w.currentSubmission.shareData.totalShares + 1 } } rnd
      else w.currentSubmission := by
  unfold debugShareClick
  split
  · rw [save_then_progress_record]
  · rfl

theorem debugGroupClick_record (w : World) (now : Int) (rnd : RandomSource) :
    (debugGroupClick w now rnd).world.currentSubmission =
      if w.currentSubmission.shareData.uniqueGroups.size < MAX_UNIQUE_GROUPS then
        afterUnlockCheck { w.currentSubmission with shareData :=
          { w.currentSubmission.shareData with
            uniqueGroups := w.currentSubmission.shareData.uniqueGroups.add
              ("debug-group-" ++ toString now) } } rnd
      else w.currentSubmission := by
  unfold debugGroupClick
  split
  · rw [save_then_progress_record]
  · rfl

theorem debugShareClick_inv (w : World) (rnd : RandomSource)
    (h : recordInv w.currentSubmission) :
    recordInv (debugShareClick w rnd).world.currentSubmission := by
  rw [debugShareClick_record]
  split
  · next hlt =>
    apply afterUnlockCheck_inv
    obtain ⟨⟨h0, h18, h8⟩, hkey⟩ := h
    unfold MAX_TOTAL_SHARES at *
    refine ⟨⟨?_, ?_, h8⟩, ?_⟩
    · show (0 : Int) ≤ w.currentSubmission.shareData.totalShares + 1
      omega
    · show w.currentSubmission.shareData.totalShares + 1 ≤ (18 : Int)
      omega
    · intro hk
      have hc := hkey hk
      have hc1 : (18 : Int) ≤ w.currentSubmission.shareData.totalShares := hc.1
      exact ⟨by show (18 : Int) ≤ w.currentSubmission.shareData.totalShares + 1; omega, hc.2⟩
  · exact h

theorem debugGroupClick_inv (w : World) (now : Int) (rnd : RandomSource)
    (h : recordInv w.currentSubmission) :
    recordInv (debugGroupClick w now rnd).world.currentSubmission := by
  rw [debugGroupClick_record]
  split
  · next hlt =>
    apply afterUnlockCheck_inv
    obtain ⟨⟨h0, h18, h8⟩, hkey⟩ := h
    have h1 := StrSet.size_add_le w.currentSubmission.shareData.uniqueGroups
      ("debug-group-" ++ toString now)
    have h2 := StrSet.size_le_add w.currentSubmission.shareData.uniqueGroups
      ("debug-group-" ++ toString now)
    refine ⟨⟨h0, h18, ?_⟩, ?_⟩
    · show (w.currentSubmission.shareData.uniqueGroups.add _).size ≤ MAX_UNIQUE_GROUPS
      omega
    · intro hk
      have hc := hkey hk
      exact ⟨hc.1, le_trans hc.2 h2⟩
  · exact h

theorem handleFormSubmit_inv (w : World) (form : FormElements) (freshId : String)
    (rnd : RandomSource) (h : recordInv w.currentSubmission) :
    recordInv (handleFormSubmit w form freshId rnd).world.currentSubmission := by
  simp only [handleFormSubmit]
  split
  · rw [andThen_record _ _ (fun _ => rfl), save_then_progress_record]
    apply afterUnlockCheck_inv
    exact recordInv_congr rfl rfl h
  · exact h

theorem handleManualShareClick_inv (P : Platform) (w : World) (now : Int)
    (rnd : RandomSource) (h : recordInv w.currentSubmission) :
    recordInv (handleManualShareClick P w now rnd).world.currentSubmission := by
  simp only [handleManualShareClick]
  split
  · exact h
  · exact incrementShare_inv P w _ now rnd h

theorem step_inv (P : Platform) (w : World) (e : Event)
    (h : recordInv w.currentSubmission) :
    recordInv (step P w e).world.currentSubmission := by
  cases e with
  | formSubmit form freshId rnd => exact handleFormSubmit_inv w form freshId rnd h
  | typeGroupName text => exact h
  | manualShareClick now rnd => exact handleManualShareClick_inv P w now rnd h
  | shareAttempt groupName now rnd => exact incrementShare_inv P w groupName now rnd h
  | debugShare rnd => exact debugShareClick_inv w rnd h
  | debugGroup now rnd => exact debugGroupClick_inv w now rnd h
  | unlockCheck rnd =>
    show recordInv (updateProgressUI w rnd).world.currentSubmission
    rw [updateProgressUI_eq_afterUnlockCheck]
    exact afterUnlockCheck_inv _ _ h

theorem run_inv (P : Platform) (events : List Event) :
    ∀ w : World, recordInv w.currentSubmission →
      recordInv (run P w events).currentSubmission := by
  induction events with
  | nil => intro w h; exact h
  | cons e rest ih =>
    intro w h
    exact ih (step P w e).world (step_inv P w e h)

/-- C1: from the initial record, after any finite sequence of events (share attempts
with any label and timestamp, debug-share and debug-group clicks, and the other
handlers) the state satisfies 0 ≤ totalShares ≤ 18 and |uniqueGroups| ≤ 8. -/
theorem counters_stay_within_caps (P : Platform) (t0 : Int) (st : Storage)
    (events : List Event) :
    0 ≤ (run P (initialWorld t0 st) events).currentSubmission.shareData.totalShares ∧
    (run P (initialWorld t0 st) events).currentSubmission.shareData.totalShares ≤ 18 ∧
    (run P (initialWorld t0 st) events).currentSubmission.shareData.uniqueGroups.size ≤ 8 :=
  (run_inv P events (initialWorld t0 st) (recordInv_initial t0)).1

theorem StrSet.mem_add {s : StrSet} {x g : String} (h : g ∈ (s.add x).items) :
    g ∈ s.items ∨ g = x := by
  by_cases hx : x ∈ s.items
  · rw [StrSet.add_of_mem hx] at h
    exact Or.inl h
  · rw [StrSet.items_add_of_not_mem hx] at h
    rcases List.mem_append.mp h with h1 | h1
    · exact Or.inl h1
    · exact Or.inr (by simpa using h1)

theorem debugLabel_ne_empty (now : Int) : "debug-group-" ++ toString now ≠ "" := by
  intro h
  have hlen : ("debug-group-" ++ toString now).length = 0 := by rw [h]; rfl
  rw [String.length_append] at hlen
  have h12 : "debug-group-".length = 12 := by decide
  omega

/-- Every handler leaves `uniqueGroups` as it was or adds one non-empty string. -/
theorem step_groups_shape (P : Platform) (w : World) (e : Event) :
    (step P w e).world.currentSubmission.shareData.uniqueGroups =
        w.currentSubmission.shareData.uniqueGroups ∨
    ∃ x : String, x ≠ "" ∧
      (step P w e).world.currentSubmission.shareData.uniqueGroups =
        w.currentSubmission.shareData.uniqueGroups.add x := by
  have hshare : ∀ (groupName : String) (now : Int) (rnd : RandomSource),
      (incrementShare P w groupName now rnd).world.currentSubmission.shareData.uniqueGroups =
          w.currentSubmission.shareData.uniqueGroups ∨
      ∃ x : String, x ≠ "" ∧
        (incrementShare P w groupName now rnd).world.currentSubmission.shareData.uniqueGroups =
          w.currentSubmission.shareData.uniqueGroups.add x := by
    intro groupName now rnd
    by_cases hgate :
        now - w.currentSubmission.shareData.lastShareTimestamp < MIN_SHARE_TIME_MS
    · rw [incrementShare_rejected P w groupName now rnd hgate]
      exact Or.inl rfl
    · rw [(incrementShare_shareData P w groupName now rnd hgate).2]
      cases hcu : countedAsUnique P w groupName
      · exact Or.inl rfl
      · exact Or.inr ⟨normalizedGroup P groupName,
          ((countedAsUnique_iff P w groupName).mp hcu).1, rfl⟩
  cases e with
  | formSubmit form freshId rnd =>
    simp only [step, handleFormSubmit]
    split
    · rw [andThen_record _ _ (fun _ => rfl), save_then_progress_record,
        afterUnlockCheck_shareData]
      exact Or.inl rfl
    · exact Or.inl rfl
  | typeGroupName text => exact Or.inl rfl
  | manualShareClick now rnd =>
    simp only [step, handleManualShareClick]
    split
    · exact Or.inl rfl
    · exact hshare _ now rnd
  | shareAttempt groupName now rnd => exact hshare groupName now rnd
  | debugShare rnd =>
    simp only [step]
    rw [debugShareClick_record]
    split
    · rw [afterUnlockCheck_shareData]
      exact Or.inl rfl
    · exact Or.inl rfl
  | debugGroup now rnd =>
    simp only [step]
    rw [debugGroupClick_record]
    split
    · rw [afterUnlockCheck_shareData]
      exact Or.inr ⟨_, debugLabel_ne_empty now, rfl⟩
    · exact Or.inl rfl
  | unlockCheck rnd =>
    simp only [step]
    rw [updateProgressUI_eq_afterUnlockCheck, afterUnlockCheck_shareData]
    exact Or.inl rfl

theorem run_groupsNonEmpty (P : Platform) (events : List Event) :
    ∀ w : World, groupsNonEmpty w.currentSubmission →
      groupsNonEmpty (run P w events).currentSubmission := by
  induction events with
  | nil => intro w h; exact h
  | cons e rest ih =>
    intro w h
    apply ih (step P w e).world
    intro g hg
    rcases step_groups_shape P w e with hs | ⟨x, hx, hs⟩
    · rw [hs] at hg
      exact h g hg
    · rw [hs] at hg
      rcases StrSet.mem_add hg with h1 | h1
      · exact h g h1
      · rw [h1]
        exact hx

/-- C4: after an attempt that passes the rate gate, uniqueGroups is the old set with
the normalized label appended exactly when that label is non-empty, absent from the
set, and the set has fewer than 8 elements; otherwise it is unchanged.  A label that
normalizes to the empty string leaves uniqueGroups unchanged and still adds 1 to
totalShares when totalShares < 18; a set without the empty string stays so, and in
every state reached from the initial record no element of uniqueGroups is empty. -/
theorem unique_groups_after_attempt (P : Platform) (w : World) (groupName : String)
    (now : Int) (rnd : RandomSource)
    (hgate : ¬ now - w.currentSubmission.shareData.lastShareTimestamp < 5000) :
    (incrementShare P w groupName now rnd).world.currentSubmission.shareData.uniqueGroups.items =
      (if normalizedGroup P groupName ≠ "" ∧
          normalizedGroup P groupName ∉ w.currentSubmission.shareData.uniqueGroups.items ∧
          w.currentSubmission.shareData.uniqueGroups.size < 8
       then w.currentSubmission.shareData.uniqueGroups.items ++ [normalizedGroup P groupName]
       else w.currentSubmission.shareData.uniqueGroups.items) ∧
    (normalizedGroup P groupName = "" →
      (incrementShare P w groupName now rnd).world.currentSubmission.shareData.uniqueGroups =
        w.currentSubmission.shareData.uniqueGroups ∧
      (w.currentSubmission.shareData.totalShares < 18 →
        (incrementShare P w groupName now rnd).world.currentSubmission.shareData.totalShares =
          w.currentSubmission.shareData.totalShares + 1)) ∧
    ((∀ g ∈ w.currentSubmission.shareData.uniqueGroups.items, g ≠ "") →
      ∀ g ∈ (incrementShare P w groupName now rnd
        ).world.currentSubmission.shareData.uniqueGroups.items, g ≠ "") ∧
    (∀ (t0 : Int) (st : Storage) (events : List Event),
      ∀ g ∈ (run P (initialWorld t0 st) events).currentSubmission.shareData.uniqueGroups.items,
        g ≠ "") := by
  have h := incrementShare_shareData P w groupName now rnd hgate
  have hitems : (incrementShare P w groupName now rnd
      ).world.currentSubmission.shareData.uniqueGroups.items =
      (if normalizedGroup P groupName ≠ "" ∧
          normalizedGroup P groupName ∉ w.currentSubmission.shareData.uniqueGroups.items ∧
          w.currentSubmission.shareData.uniqueGroups.size < 8
       then w.currentSubmission.shareData.uniqueGroups.items ++ [normalizedGroup P groupName]
       else w.currentSubmission.shareData.uniqueGroups.items) := by
    rw [h.2]
    cases hcu : countedAsUnique P w groupName
    · have hn : ¬ (normalizedGroup P groupName ≠ "" ∧
          normalizedGroup P groupName ∉ w.currentSubmission.shareData.uniqueGroups.items ∧
          w.currentSubmission.shareData.uniqueGroups.size < 8) := by
        intro hcond
        rw [(countedAsUnique_iff P w groupName).mpr hcond] at hcu
        exact Bool.noConfusion hcu
      rw [if_neg hn]
      rfl
    · have hcond : normalizedGroup P groupName ≠ "" ∧
          normalizedGroup P groupName ∉ w.currentSubmission.shareData.uniqueGroups.items ∧
          w.currentSubmission.shareData.uniqueGroups.size < 8 :=
        (countedAsUnique_iff P w groupName).mp hcu
      rw [if_pos hcond]
      exact StrSet.items_add_of_not_mem hcond.2.1
  refine ⟨hitems, ?_, ?_, ?_⟩
  rotate_left 2
  · intro t0 st events
    exact run_groupsNonEmpty P events (initialWorld t0 st) (fun g hg => by
      simp [initialWorld, initialSubmission, StrSet.empty] at hg)
  · intro hempty
    constructor
    · apply StrSet.ext_items
      rw [hitems, if_neg (fun hcond => hcond.1 hempty)]
    · intro hlt
      rw [h.1]
      exact if_pos hlt
  · intro hold g hg
    rw [hitems] at hg
    split at hg
    · next hcond =>
      rcases List.mem_append.mp hg with hg1 | hg1
      · exact hold g hg1
      · have : g = normalizedGroup P groupName := by simpa using hg1
        rw [this]
        exact hcond.1
    · exact hold g hg

/-! ## The key generator -/

theorem chars_data_length : chars.data.length = 36 := by decide

theorem appendCharAt_of_lt (segment : String) (i : Nat) (h : i < 36) :
    ∃ c ∈ chars.data, appendCharAt segment i = segment.push c := by
  have hi : i < chars.data.length := by rw [chars_data_length]; exact h
  refine ⟨chars.data[i], List.getElem_mem hi, ?_⟩
  unfold appendCharAt
  rw [List.getElem?_eq_getElem hi]

theorem appendIndexed_of_lt (segment : String) (i : Nat) (h : i < 36) :
    ∃ c ∈ chars.data, appendIndexed segment i = segment.push c := by
  have hi : i < chars.data.length := by rw [chars_data_length]; exact h
  refine ⟨chars.data[i], List.getElem_mem hi, ?_⟩
  unfold appendIndexed
  rw [List.getElem?_eq_getElem hi]

theorem roundToDouble_lt (n : Nat) (h : n + 36 ≤ 36 * 2 ^ 53) :
    roundToDouble n < 36 * 2 ^ 53 := by
  have hs : Nat.log2 n + 1 - 53 ≤ 6 := by
    by_cases h0 : n = 0
    · subst h0
      have h00 : Nat.log2 0 = 0 := by
        unfold Nat.log2
        simp
      rw [h00]
      decide
    · have hlt : n.log2 < 59 := (Nat.log2_lt h0).mpr (by norm_num at h ⊢; omega)
      omega
  unfold roundToDouble
  generalize Nat.log2 n + 1 - 53 = s at hs ⊢
  norm_num at h
  interval_cases s
  · simp only [if_true]
    omega
  all_goals
    norm_num
    split <;> omega

theorem floorScaled_lt (d : Nat) : floorScaled d < 36 := by
  unfold floorScaled
  have hlen : chars.length = 36 := chars_data_length
  rw [hlen]
  have hpos : 0 < 2 ^ 53 := by norm_num
  rw [Nat.div_lt_iff_lt_mul hpos]
  have hmod := Nat.mod_lt d hpos
  exact roundToDouble_lt _ (by norm_num at hmod ⊢; omega)

/-- Four pushes of alphabet characters onto the empty string make a segment. -/
theorem foldl_push_isSegment (f : String → Nat → String)
    (hf : ∀ seg i, ∃ c ∈ chars.data, f seg i = seg.push c) :
    isSegment ((List.range segmentLength).foldl f "") := by
  have hr : List.range segmentLength = [0, 1, 2, 3] := by decide
  rw [hr]
  simp only [List.foldl]
  obtain ⟨c0, hc0, e0⟩ := hf "" 0
  obtain ⟨c1, hc1, e1⟩ := hf (f "" 0) 1
  obtain ⟨c2, hc2, e2⟩ := hf (f (f "" 0) 1) 2
  obtain ⟨c3, hc3, e3⟩ := hf (f (f (f "" 0) 1) 2) 3
  rw [e3, e2, e1, e0]
  constructor
  · simp [String.length_push]
  · intro c hc
    simp [String.push] at hc
    rcases hc with h | h | h | h <;> rw [h] <;> assumption

theorem generateSegment_isSegment (rnd : RandomSource) :
    isSegment (generateSegment rnd).1 := by
  cases rnd with
  | crypto bytes =>
    simp only [generateSegment]
    apply foldl_push_isSegment
    intro seg i
    apply appendIndexed_of_lt
    have hlen : chars.length = 36 := chars_data_length
    rw [hlen]
    exact Nat.mod_lt _ (by norm_num)
  | mathRandom draws =>
    simp only [generateSegment]
    apply foldl_push_isSegment
    intro seg i
    exact appendCharAt_of_lt seg _ (floorScaled_lt _)

/-- The key as the loop of script.js 465-468 builds it. -/
theorem generateKey_eq_segments (rnd : RandomSource) :
    generateKey rnd =
      "FF-" ++ (generateSegment rnd).1 ++ "-" ++ (generateSegment (generateSegment rnd).2).1
        ++ "-" ++ (generateSegment (generateSegment (generateSegment rnd).2).2).1
        ++ "-" ++
        (generateSegment (generateSegment (generateSegment (generateSegment rnd).2).2).2).1 := by
  have hr : List.range segments = [0, 1, 2, 3] := by decide
  unfold generateKey
  rw [hr]
  simp [List.foldl, keyLoopBody]

theorem generateKey_length (rnd : RandomSource) : (generateKey rnd).length = 22 := by
  rw [generateKey_eq_segments]
  simp only [String.length_append, (generateSegment_isSegment _).1]
  decide

theorem generateKey_truthy (rnd : RandomSource) : truthy (some (generateKey rnd)) = true := by
  have h := generateKey_length rnd
  unfold truthy
  have hne : generateKey rnd ≠ "" := by
    intro he
    rw [he] at h
    exact absurd h (by decide)
  simp [hne]

/-- C9 (code): for every random source `generateKey` returns "FF" followed by FOUR
dash-led segments of four alphabet characters each, 22 characters in all; the shape
FF-XXXX-XXXX-XXXX of the docstring (three segments, 17 characters) is never returned. -/
theorem generateKey_has_four_segments (rnd : RandomSource) :
    (∃ s1 s2 s3 s4 : String, isSegment s1 ∧ isSegment s2 ∧ isSegment s3 ∧ isSegment s4 ∧
      generateKey rnd = "FF-" ++ s1 ++ "-" ++ s2 ++ "-" ++ s3 ++ "-" ++ s4) ∧
    (generateKey rnd).length = 22 ∧
    generateKey zeroBytes = "FF-AAAA-AAAA-AAAA-AAAA" :=
  ⟨⟨_, _, _, _, generateSegment_isSegment _, generateSegment_isSegment _,
      generateSegment_isSegment _, generateSegment_isSegment _,
      generateKey_eq_segments rnd⟩,
    generateKey_length rnd, by decide⟩

/-! ## The unlock key -/

theorem incrementShare_record_shape (P : Platform) (w : World) (groupName : String)
    (now : Int) (rnd : RandomSource) :
    ∃ c : Submission, c.winKey = w.currentSubmission.winKey ∧
      ((incrementShare P w groupName now rnd).world.currentSubmission = c ∨
       (incrementShare P w groupName now rnd).world.currentSubmission =
         afterUnlockCheck c rnd) := by
  by_cases hgate : now - w.currentSubmission.shareData.lastShareTimestamp < MIN_SHARE_TIME_MS
  · rw [incrementShare_rejected P w groupName now rnd hgate]
    exact ⟨w.currentSubmission, rfl, Or.inl rfl⟩
  · cases hc : (countedAsTotal w || countedAsUnique P w groupName)
    · exact ⟨w.currentSubmission, rfl,
        Or.inl (incrementShare_uncounted P w groupName now rnd hgate hc).1⟩
    · exact ⟨stampedRecord P w groupName now, rfl,
        Or.inr (incrementShare_counted_record P w groupName now rnd hgate hc)⟩

/-- Every handler leaves the record equal, up to the fields other than `winKey`, to a
record `c` with the old key, or to `c` after the unlock check. -/
theorem step_record_shape (P : Platform) (w : World) (e : Event) :
    ∃ (c : Submission) (rnd : RandomSource), c.winKey = w.currentSubmission.winKey ∧
      ((step P w e).world.currentSubmission = c ∨
       (step P w e).world.currentSubmission = afterUnlockCheck c rnd) := by
  cases e with
  | formSubmit form freshId rnd =>
    simp only [step, handleFormSubmit]
    split
    · rw [andThen_record _ _ (fun _ => rfl), save_then_progress_record]
      exact ⟨_, rnd, by rfl, Or.inr rfl⟩
    · exact ⟨w.currentSubmission, rnd, rfl, Or.inl rfl⟩
  | typeGroupName text => exact ⟨w.currentSubmission, zeroBytes, rfl, Or.inl rfl⟩
  | manualShareClick now rnd =>
    simp only [step, handleManualShareClick]
    split
    · exact ⟨w.currentSubmission, rnd, rfl, Or.inl rfl⟩
    · obtain ⟨c, hk, h⟩ := incrementShare_record_shape P w (trim w.ui.groupName) now rnd
      exact ⟨c, rnd, hk, h⟩
  | shareAttempt groupName now rnd =>
    obtain ⟨c, hk, h⟩ := incrementShare_record_shape P w groupName now rnd
    exact ⟨c, rnd, hk, h⟩
  | debugShare rnd =>
    simp only [step]
    rw [debugShareClick_record]
    split
    · exact ⟨_, rnd, by rfl, Or.inr rfl⟩
    · exact ⟨w.currentSubmission, rnd, rfl, Or.inl rfl⟩
  | debugGroup now rnd =>
    simp only [step]
    rw [debugGroupClick_record]
    split
    · exact ⟨_, rnd, by rfl, Or.inr rfl⟩
    · exact ⟨w.currentSubmission, rnd, rfl, Or.inl rfl⟩
  | unlockCheck rnd =>
    exact ⟨w.currentSubmission, rnd, rfl, Or.inr (updateProgressUI_eq_afterUnlockCheck w rnd)⟩

theorem afterUnlockCheck_winKey (c : Submission) (rnd : RandomSource) :
    (afterUnlockCheck c rnd).winKey = c.winKey ∨
    (afterUnlockCheck c rnd).winKey = some (generateKey rnd) := by
  unfold afterUnlockCheck
  split
  · exact Or.inr rfl
  · exact Or.inl rfl

theorem step_keeps_set_key (P : Platform) (w : World) (e : Event)
    (h : truthy w.currentSubmission.winKey = true) :
    (step P w e).world.currentSubmission.winKey = w.currentSubmission.winKey := by
  obtain ⟨c, rnd, hk, hr | hr⟩ := step_record_shape P w e
  · rw [hr, hk]
  · rw [hr, afterUnlockCheck_of_key c rnd (by rw [hk]; exact h), hk]

theorem step_keyWellFormed (P : Platform) (w : World) (e : Event)
    (h : keyWellFormed w.currentSubmission) :
    keyWellFormed (step P w e).world.currentSubmission := by
  obtain ⟨c, rnd, hk, hr | hr⟩ := step_record_shape P w e
  · unfold keyWellFormed at *
    rw [hr, hk]
    exact h
  · unfold keyWellFormed at *
    rw [hr]
    rcases afterUnlockCheck_winKey c rnd with h1 | h1
    · rw [h1, hk]
      exact h
    · rw [h1]
      intro _
      exact generateKey_truthy rnd

theorem run_keyWellFormed (P : Platform) (events : List Event) :
    ∀ w : World, keyWellFormed w.currentSubmission →
      keyWellFormed (run P w events).currentSubmission := by
  induction events with
  | nil => intro w h; exact h
  | cons e rest ih =>
    intro w h
    exact ih (step P w e).world (step_keyWellFormed P w e h)

/-- C6: for a record without a key, after a share attempt that passes the rate gate
and is counted, the key is set exactly when the resulting state has |uniqueGroups| ≥ 8
and totalShares ≥ 18; a key set by the attempt is the generated one. -/
theorem key_set_iff_both_caps (P : Platform) (w : World) (groupName : String)
    (now : Int) (rnd : RandomSource)
    (hkey : truthy w.currentSubmission.winKey = false)
    (hgate : ¬ now - w.currentSubmission.shareData.lastShareTimestamp < 5000)
    (hc : (countedAsTotal w || countedAsUnique P w groupName) = true) :
    (truthy (incrementShare P w groupName now rnd).world.currentSubmission.winKey = true ↔
      (8 ≤ (incrementShare P w groupName now rnd
          ).world.currentSubmission.shareData.uniqueGroups.size ∧
       18 ≤ (incrementShare P w groupName now rnd
          ).world.currentSubmission.shareData.totalShares)) ∧
    (truthy (incrementShare P w groupName now rnd).world.currentSubmission.winKey = true →
      (incrementShare P w groupName now rnd).world.currentSubmission.winKey =
        some (generateKey rnd)) := by
  rw [incrementShare_counted_record P w groupName now rnd hgate hc]
  have hk : truthy (stampedRecord P w groupName now).winKey = false := hkey
  unfold afterUnlockCheck
  split
  · next hcond =>
    refine ⟨⟨fun _ => ⟨hcond.1, hcond.2.1⟩, fun _ => generateKey_truthy rnd⟩, fun _ => rfl⟩
  · next hcond =>
    refine ⟨⟨fun h => ?_, fun h => ?_⟩, fun h => ?_⟩
    · rw [hk] at h
      exact Bool.noConfusion h
    · exact absurd ⟨h.1, h.2, hk⟩ hcond
    · rw [hk] at h
      exact Bool.noConfusion h

/-- C7: a key that is set is never regenerated or changed: `unlockMembershipKey` leaves
the whole record, the key included, as it was, whatever the random source gives; with both caps reached, the first unlock check
leaves a key (the generated one when none was set) and a second check leaves that same
key; every handler of the page and `saveData` keep a key that is set. -/
theorem key_generated_once_then_immutable :
    (∀ (w : World) (rnd : RandomSource), truthy w.currentSubmission.winKey = true →
      (unlockMembershipKey w rnd).world.currentSubmission = w.currentSubmission) ∧
    (∀ (w : World) (rnd1 rnd2 : RandomSource),
      8 ≤ w.currentSubmission.shareData.uniqueGroups.size →
      18 ≤ w.currentSubmission.shareData.totalShares →
      truthy (updateProgressUI w rnd1).world.currentSubmission.winKey = true ∧
      (truthy w.currentSubmission.winKey = false →
        (updateProgressUI w rnd1).world.currentSubmission.winKey =
          some (generateKey rnd1)) ∧
      (updateProgressUI (updateProgressUI w rnd1).world rnd2).world.currentSubmission.winKey =
        (updateProgressUI w rnd1).world.currentSubmission.winKey) ∧
    (∀ (P : Platform) (w : World) (e : Event), truthy w.currentSubmission.winKey = true →
      (step P w e).world.currentSubmission.winKey = w.currentSubmission.winKey) ∧
    (∀ w : World, (saveData w).world.currentSubmission.winKey =
      w.currentSubmission.winKey) := by
  refine ⟨?_, ?_, ?_, ?_⟩
  · intro w rnd h
    rw [unlockMembershipKey_record, if_pos h]
  · intro w rnd1 rnd2 h8 h18
    have hfirst : truthy (updateProgressUI w rnd1).world.currentSubmission.winKey = true := by
      rw [updateProgressUI_eq_afterUnlockCheck]
      unfold afterUnlockCheck
      split
      · exact generateKey_truthy rnd1
      · next hcond =>
        cases hk : truthy w.currentSubmission.winKey
        · exact absurd ⟨h8, h18, hk⟩ hcond
        · rfl
    refine ⟨hfirst, ?_, ?_⟩
    · intro hk
      rw [updateProgressUI_eq_afterUnlockCheck]
      unfold afterUnlockCheck
      rw [if_pos ⟨h8, h18, hk⟩]
    · rw [updateProgressUI_eq_afterUnlockCheck (updateProgressUI w rnd1).world rnd2,
        afterUnlockCheck_of_key _ _ hfirst]
  · intro P w e h
    exact step_keeps_set_key P w e h
  · intro w
    rw [saveData_record]

/-- C8: in every state reached from the initial record by form submissions, share
attempts, debug clicks and unlock checks, a key that is set (not null) is a non-empty
string and comes with totalShares = 18 and |uniqueGroups| = 8. -/
theorem key_implies_exact_caps (P : Platform) (t0 : Int) (st : Storage)
    (events : List Event)
    (hset : (run P (initialWorld t0 st) events).currentSubmission.winKey ≠ none) :
    truthy (run P (initialWorld t0 st) events).currentSubmission.winKey = true ∧
    (run P (initialWorld t0 st) events).currentSubmission.shareData.totalShares = 18 ∧
    (run P (initialWorld t0 st) events).currentSubmission.shareData.uniqueGroups.size = 8 := by
  have hwf := run_keyWellFormed P events (initialWorld t0 st) (fun h => absurd rfl h)
  have hinv := run_inv P events (initialWorld t0 st) (recordInv_initial t0)
  have htruthy := hwf hset
  obtain ⟨⟨_, h18, h8⟩, hkey⟩ := hinv
  have hc := hkey htruthy
  exact ⟨htruthy, le_antisymm h18 hc.1, le_antisymm h8 hc.2⟩

/-! ## Persistence -/

theorem orZero_eq (x : Int) : orZero x = x := by
  unfold orZero
  split
  · next h => exact h.symm
  · rfl

theorem jsonNumber_finite (x : Option JsDouble) (q : ℚ)
    (h : x = some (JsDouble.finite q)) : jsonNumber x = x := by
  rw [h]
  rfl

/-- What `loadData` rebuilds on a fresh page from the cells `saveData` wrote: the saved
record with its wallet amount passed through JSON. -/
theorem load_after_save (w : World) (t1 : Int) :
    loadData (initialWorld t1 (saveData w).world.localStorage) =
      done { initialWorld t1 (saveData w).world.localStorage with
             currentSubmission :=
               { w.currentSubmission with
                 walletAmount := jsonNumber w.currentSubmission.walletAmount } } := by
  have hf := saveData_formData w
  have hs := saveData_shareData w
  unfold loadData loadFormData initialWorld
  simp only [hf, Stored.truthy, if_true, andThen_done]
  unfold loadShareData
  simp only [hs, Stored.truthy, if_true]
  simp only [formBlobOf, shareBlobOf, orZero_eq, StrSet.ofArray_toArray]

/-- C10 (as the code behaves): after `saveData`, `loadData` run on a fresh default
record completes normally and rebuilds, for every record, the identity fields, currency,
winKey, timestamp, totalShares, lastShareTimestamp and uniqueGroups (same elements, same
order); it rebuilds walletAmount, and so the whole record, when walletAmount is a finite
number. -/
theorem save_then_load_rebuilds_finite_record (w : World) (t1 : Int) :
    (loadData (initialWorld t1 (saveData w).world.localStorage)).error = none ∧
    (loadData (initialWorld t1 (saveData w).world.localStorage)).world.currentSubmission.id =
      w.currentSubmission.id ∧
    (loadData (initialWorld t1 (saveData w).world.localStorage)
      ).world.currentSubmission.playerId = w.currentSubmission.playerId ∧
    (loadData (initialWorld t1 (saveData w).world.localStorage)
      ).world.currentSubmission.playerName = w.currentSubmission.playerName ∧
    (loadData (initialWorld t1 (saveData w).world.localStorage)
      ).world.currentSubmission.region = w.currentSubmission.region ∧
    (loadData (initialWorld t1 (saveData w).world.localStorage)
      ).world.currentSubmission.membership = w.currentSubmission.membership ∧
    (loadData (initialWorld t1 (saveData w).world.localStorage)
      ).world.currentSubmission.currency = w.currentSubmission.currency ∧
    (loadData (initialWorld t1 (saveData w).world.localStorage)
      ).world.currentSubmission.winKey = w.currentSubmission.winKey ∧
    (loadData (initialWorld t1 (saveData w).world.localStorage)
      ).world.currentSubmission.timestamp = w.currentSubmission.timestamp ∧
    (loadData (initialWorld t1 (saveData w).world.localStorage)
      ).world.currentSubmission.shareData = w.currentSubmission.shareData ∧
    (∀ g : String,
      g ∈ (loadData (initialWorld t1 (saveData w).world.localStorage)
        ).world.currentSubmission.shareData.uniqueGroups.items ↔
      g ∈ w.currentSubmission.shareData.uniqueGroups.items) ∧
    (∀ q : ℚ, w.currentSubmission.walletAmount = some (JsDouble.finite q) →
      (loadData (initialWorld t1 (saveData w).world.localStorage)
        ).world.currentSubmission.walletAmount = w.currentSubmission.walletAmount ∧
      (loadData (initialWorld t1 (saveData w).world.localStorage)
        ).world.currentSubmission = w.currentSubmission) := by
  rw [load_after_save]
  refine ⟨rfl, rfl, rfl, rfl, rfl, rfl, rfl, rfl, rfl, rfl, fun _ => Iff.rfl, ?_⟩
  intro q hq
  have hj := jsonNumber_finite w.currentSubmission.walletAmount q hq
  constructor
  · exact hj
  · show { w.currentSubmission with
           walletAmount := jsonNumber w.currentSubmission.walletAmount } = w.currentSubmission
    rw [hj]

/-! ## Instances on concrete inputs -/

set_option maxRecDepth 100000

/-- Instance of C2: on the fresh page an attempt at 4999 ms is rejected; an attempt at
10000 ms is counted, and the attempt with a new label at 14999 ms changes nothing. -/
theorem rate_gate_rejects_without_change_witness :
    ((4999 : Int) - freshWorld.currentSubmission.shareData.lastShareTimestamp < 5000 ∧
      (incrementShare asciiPlatform freshWorld "A" 4999 zeroBytes).world.currentSubmission =
        freshWorld.currentSubmission) ∧
    (¬ (10000 : Int) - freshWorld.currentSubmission.shareData.lastShareTimestamp < 5000 ∧
      (countedAsTotal freshWorld || countedAsUnique asciiPlatform freshWorld "A") = true ∧
      (14999 : Int) - 10000 < 5000 ∧
      (incrementShare asciiPlatform
          (incrementShare asciiPlatform freshWorld "A" 10000 zeroBytes).world "B" 14999
          zeroBytes).world.currentSubmission =
        (incrementShare asciiPlatform freshWorld "A" 10000 zeroBytes).world.currentSubmission) :=
  ⟨⟨by decide,
    ((rate_gate_rejects_without_change asciiPlatform freshWorld "A" 4999 zeroBytes).1
      (by decide)).1⟩,
   by decide, by decide, by decide,
    ((rate_gate_rejects_without_change asciiPlatform freshWorld "A" 10000 zeroBytes).2
      (by decide) (by decide) "B" 14999 zeroBytes (by decide)).1⟩

/-- Instance of C3: after "A" was counted at 6000 ms, the label " a " at 12000 ms is a
repeat: totalShares goes from 1 to 2 and uniqueGroups keeps its single element. -/
theorem total_counts_whatever_the_label_witness :
    ¬ (12000 : Int) - (run asciiPlatform freshWorld (scenarioEvents.take 1)
        ).currentSubmission.shareData.lastShareTimestamp < 5000 ∧
    normalizedGroup asciiPlatform " a " ∈ (run asciiPlatform freshWorld (scenarioEvents.take 1)
        ).currentSubmission.shareData.uniqueGroups.items ∧
    (run asciiPlatform freshWorld (scenarioEvents.take 1)
        ).currentSubmission.shareData.totalShares < 18 ∧
    (incrementShare asciiPlatform (run asciiPlatform freshWorld (scenarioEvents.take 1))
        " a " 12000 zeroBytes).world.currentSubmission.shareData.uniqueGroups.size =
      (run asciiPlatform freshWorld (scenarioEvents.take 1)
        ).currentSubmission.shareData.uniqueGroups.size ∧
    (incrementShare asciiPlatform (run asciiPlatform freshWorld (scenarioEvents.take 1))
        " a " 12000 zeroBytes).world.currentSubmission.shareData.totalShares =
      (run asciiPlatform freshWorld (scenarioEvents.take 1)
        ).currentSubmission.shareData.totalShares + 1 :=
  ⟨by decide, by decide, by decide,
    ((total_counts_whatever_the_label asciiPlatform
        (run asciiPlatform freshWorld (scenarioEvents.take 1)) " a " 12000 zeroBytes
        (by decide)).2 (by decide)).1,
    ((total_counts_whatever_the_label asciiPlatform
        (run asciiPlatform freshWorld (scenarioEvents.take 1)) " a " 12000 zeroBytes
        (by decide)).2 (by decide)).2 (by decide)⟩

/-- Instance of C4: on the fresh page the blank label "   " at 6000 ms normalizes to
the empty string, leaves uniqueGroups unchanged and adds 1 to totalShares. -/
theorem unique_groups_after_attempt_witness :
    ¬ (6000 : Int) - freshWorld.currentSubmission.shareData.lastShareTimestamp < 5000 ∧
    normalizedGroup asciiPlatform "   " = "" ∧
    freshWorld.currentSubmission.shareData.totalShares < 18 ∧
    (incrementShare asciiPlatform freshWorld "   " 6000 zeroBytes
        ).world.currentSubmission.shareData.uniqueGroups =
      freshWorld.currentSubmission.shareData.uniqueGroups ∧
    (incrementShare asciiPlatform freshWorld "   " 6000 zeroBytes
        ).world.currentSubmission.shareData.totalShares =
      freshWorld.currentSubmission.shareData.totalShares + 1 :=
  ⟨by decide, by decide, by decide,
    ((unique_groups_after_attempt asciiPlatform freshWorld "   " 6000 zeroBytes
        (by decide)).2.1 (by decide)).1,
    ((unique_groups_after_attempt asciiPlatform freshWorld "   " 6000 zeroBytes
        (by decide)).2.1 (by decide)).2 (by decide)⟩

/-- Instance of C5: on the fresh page the attempt "A" at 6000 ms is counted, stamps
6000 and leaves the new share data in the share cell. -/
theorem commit_only_when_counted_witness :
    ¬ (6000 : Int) - freshWorld.currentSubmission.shareData.lastShareTimestamp < 5000 ∧
    (countedAsTotal freshWorld || countedAsUnique asciiPlatform freshWorld "A") = true ∧
    (incrementShare asciiPlatform freshWorld "A" 6000 zeroBytes
        ).world.currentSubmission.shareData.lastShareTimestamp = 6000 ∧
    (incrementShare asciiPlatform freshWorld "A" 6000 zeroBytes).world.localStorage.shareData =
      Stored.json
        { totalShares := (incrementShare asciiPlatform freshWorld "A" 6000 zeroBytes
            ).world.currentSubmission.shareData.totalShares,
          uniqueGroups := (incrementShare asciiPlatform freshWorld "A" 6000 zeroBytes
            ).world.currentSubmission.shareData.uniqueGroups.toArray,
          lastShareTimestamp := 6000 } :=
  ⟨by decide, by decide,
    (commit_only_when_counted asciiPlatform freshWorld "A" 6000 zeroBytes).1
      (by decide) (by decide)⟩

/-- Instance of C6, the scenario: from the fresh page, attempts "A".."H" 6 s apart give
8 groups and 8 shares without a key; after 9 more attempts "A" there are 17 shares and
no key; the eighteenth attempt reaches 18 shares with 8 groups and sets a non-empty key. -/
theorem key_set_iff_both_caps_witness :
    ((run asciiPlatform freshWorld (scenarioEvents.take 8)
        ).currentSubmission.shareData.uniqueGroups.size = 8 ∧
     (run asciiPlatform freshWorld (scenarioEvents.take 8)
        ).currentSubmission.shareData.totalShares = 8 ∧
     (run asciiPlatform freshWorld (scenarioEvents.take 8)).currentSubmission.winKey = none) ∧
    ((run asciiPlatform freshWorld (scenarioEvents.take 17)
        ).currentSubmission.shareData.uniqueGroups.size = 8 ∧
     (run asciiPlatform freshWorld (scenarioEvents.take 17)
        ).currentSubmission.shareData.totalShares = 17 ∧
     (run asciiPlatform freshWorld (scenarioEvents.take 17)).currentSubmission.winKey = none) ∧
    ((run asciiPlatform freshWorld scenarioEvents
        ).currentSubmission.shareData.uniqueGroups.size = 8 ∧
     (run asciiPlatform freshWorld scenarioEvents
        ).currentSubmission.shareData.totalShares = 18 ∧
     (run asciiPlatform freshWorld scenarioEvents).currentSubmission.winKey =
        some "FF-AAAA-AAAA-AAAA-AAAA") ∧
    (truthy (incrementShare asciiPlatform
        (run asciiPlatform freshWorld (scenarioEvents.take 17)) "A" 108000 zeroBytes
        ).world.currentSubmission.winKey = true ↔
      (8 ≤ (incrementShare asciiPlatform
          (run asciiPlatform freshWorld (scenarioEvents.take 17)) "A" 108000 zeroBytes
          ).world.currentSubmission.shareData.uniqueGroups.size ∧
       18 ≤ (incrementShare asciiPlatform
          (run asciiPlatform freshWorld (scenarioEvents.take 17)) "A" 108000 zeroBytes
          ).world.currentSubmission.shareData.totalShares)) :=
  ⟨by decide, by decide, by decide,
    (key_set_iff_both_caps asciiPlatform
      (run asciiPlatform freshWorld (scenarioEvents.take 17)) "A" 108000 zeroBytes
      (by decide) (by decide) (by decide)).1⟩

/-- Instance of C7: on the record with both caps reached and no key, the first unlock
check sets the key drawn from the first source and the second check, given another
source, leaves it; on the keyed state every later event keeps the key. -/
theorem key_generated_once_then_immutable_witness :
    (truthy (run asciiPlatform freshWorld scenarioEvents).currentSubmission.winKey = true ∧
      (unlockMembershipKey (run asciiPlatform freshWorld scenarioEvents) oneBytes
          ).world.currentSubmission =
        (run asciiPlatform freshWorld scenarioEvents).currentSubmission ∧
      (step asciiPlatform (run asciiPlatform freshWorld scenarioEvents)
          (Event.debugGroup 200000 oneBytes)).world.currentSubmission.winKey =
        (run asciiPlatform freshWorld scenarioEvents).currentSubmission.winKey) ∧
    (8 ≤ cappedWorld.currentSubmission.shareData.uniqueGroups.size ∧
      18 ≤ cappedWorld.currentSubmission.shareData.totalShares ∧
      truthy cappedWorld.currentSubmission.winKey = false ∧
      (updateProgressUI cappedWorld zeroBytes).world.currentSubmission.winKey =
          some (generateKey zeroBytes) ∧
      (updateProgressUI (updateProgressUI cappedWorld zeroBytes).world oneBytes
          ).world.currentSubmission.winKey =
        (updateProgressUI cappedWorld zeroBytes).world.currentSubmission.winKey) :=
  ⟨⟨by decide,
    key_generated_once_then_immutable.1 _ oneBytes (by decide),
    key_generated_once_then_immutable.2.2.1 asciiPlatform _
      (Event.debugGroup 200000 oneBytes) (by decide)⟩,
   by decide, by decide, by decide,
    ((key_generated_once_then_immutable.2.1 cappedWorld zeroBytes oneBytes
      (by decide) (by decide)).2.1 (by decide)),
    ((key_generated_once_then_immutable.2.1 cappedWorld zeroBytes oneBytes
      (by decide) (by decide)).2.2)⟩

/-- Instance of C8: after the eighteen attempts of the scenario the key is set, and
the counters are exactly 18 and 8. -/
theorem key_implies_exact_caps_witness :
    (run asciiPlatform (initialWorld 0 emptyStorage) scenarioEvents
        ).currentSubmission.winKey ≠ none ∧
    truthy (run asciiPlatform (initialWorld 0 emptyStorage) scenarioEvents
        ).currentSubmission.winKey = true ∧
    (run asciiPlatform (initialWorld 0 emptyStorage) scenarioEvents
        ).currentSubmission.shareData.totalShares = 18 ∧
    (run asciiPlatform (initialWorld 0 emptyStorage) scenarioEvents
        ).currentSubmission.shareData.uniqueGroups.size = 8 :=
  ⟨by decide,
    key_implies_exact_caps asciiPlatform 0 emptyStorage scenarioEvents (by decide)⟩

/-! ## Rejection reasons of an uncounted attempt -/

/-- C14: an attempt that passes the rate gate and counts toward neither counter finds
totalShares ≥ 18; it reports "Share requirements already met!" exactly when also
|uniqueGroups| ≥ 8, and the duplicate-or-cap message exactly when |uniqueGroups| < 8. -/
theorem rejection_reason_of_uncounted_attempt (P : Platform) (w : World)
    (groupName : String) (now : Int) (rnd : RandomSource)
    (hgate : ¬ now - w.currentSubmission.shareData.lastShareTimestamp < 5000)
    (hunc : (countedAsTotal w || countedAsUnique P w groupName) = false) :
    18 ≤ w.currentSubmission.shareData.totalShares ∧
    ((incrementShare P w groupName now rnd).world.ui.errorShareGroup =
        "Share requirements already met!" ↔
      (18 ≤ w.currentSubmission.shareData.totalShares ∧
       8 ≤ w.currentSubmission.shareData.uniqueGroups.size)) ∧
    ((incrementShare P w groupName now rnd).world.ui.errorShareGroup =
        "This group name has already been counted, or the maximum share count has been reached." ↔
      (18 ≤ w.currentSubmission.shareData.totalShares ∧
       w.currentSubmission.shareData.uniqueGroups.size < 8)) := by
  have h18 : (18 : Int) ≤ w.currentSubmission.shareData.totalShares := by
    have h1 : countedAsTotal w = false := by
      cases h : countedAsTotal w <;> simp_all
    by_contra hlt
    have hlt2 : w.currentSubmission.shareData.totalShares < MAX_TOTAL_SHARES :=
      not_le.mp hlt
    rw [(countedAsTotal_iff w).mpr hlt2] at h1
    exact Bool.noConfusion h1
  have hc2 : (countedAsTotal (setShareError w "") ||
      countedAsUnique P (setShareError w "") groupName) = false := hunc
  have hcs : countShare P (setShareError w "") groupName = setShareError w "" :=
    countShare_uncounted P _ groupName hc2
  have hgate2 : ¬ now - w.currentSubmission.shareData.lastShareTimestamp <
      MIN_SHARE_TIME_MS := hgate
  refine ⟨h18, ?_, ?_⟩
  · unfold incrementShare
    rw [if_neg hgate2]
    simp only [hc2, hcs, Bool.false_eq_true, if_false]
    by_cases hcap : 8 ≤ w.currentSubmission.shareData.uniqueGroups.size
    · have hboth : (setShareError w "").currentSubmission.shareData.totalShares ≥
          MAX_TOTAL_SHARES ∧
          (setShareError w "").currentSubmission.shareData.uniqueGroups.size ≥
          MAX_UNIQUE_GROUPS := ⟨h18, hcap⟩
      rw [if_pos hboth]
      exact ⟨fun _ => ⟨h18, hcap⟩, fun _ => rfl⟩
    · have hboth : ¬ ((setShareError w "").currentSubmission.shareData.totalShares ≥
          MAX_TOTAL_SHARES ∧
          (setShareError w "").currentSubmission.shareData.uniqueGroups.size ≥
          MAX_UNIQUE_GROUPS) := fun h => hcap h.2
      rw [if_neg hboth]
      have hne : ("This group name has already been counted, or the maximum share count has been reached." : String) ≠
          "Share requirements already met!" := by decide
      constructor
      · intro h
        exact absurd h hne
      · intro h
        exact absurd h.2 hcap
  · unfold incrementShare
    rw [if_neg hgate2]
    simp only [hc2, hcs, Bool.false_eq_true, if_false]
    by_cases hcap : 8 ≤ w.currentSubmission.shareData.uniqueGroups.size
    · have hboth : (setShareError w "").currentSubmission.shareData.totalShares ≥
          MAX_TOTAL_SHARES ∧
          (setShareError w "").currentSubmission.shareData.uniqueGroups.size ≥
          MAX_UNIQUE_GROUPS := ⟨h18, hcap⟩
      rw [if_pos hboth]
      have hne : ("Share requirements already met!" : String) ≠
          "This group name has already been counted, or the maximum share count has been reached." := by
        decide
      constructor
      · intro h
        exact absurd h hne
      · intro h
        exact absurd hcap (not_le.mpr h.2)
    · have hboth : ¬ ((setShareError w "").currentSubmission.shareData.totalShares ≥
          MAX_TOTAL_SHARES ∧
          (setShareError w "").currentSubmission.shareData.uniqueGroups.size ≥
          MAX_UNIQUE_GROUPS) := fun h => hcap h.2
      rw [if_neg hboth]
      exact ⟨fun _ => ⟨h18, not_le.mp hcap⟩, fun _ => rfl⟩

/-- Instance of C14: with 18 shares and 8 groups a further attempt reports that the
requirements are met; with 18 shares and one group a repeat of that group reports the
duplicate-or-cap message. -/
theorem rejection_reason_of_uncounted_attempt_witness :
    (¬ (200000 : Int) - cappedWorld.currentSubmission.shareData.lastShareTimestamp < 5000 ∧
      (countedAsTotal cappedWorld || countedAsUnique asciiPlatform cappedWorld "Z") = false ∧
      (incrementShare asciiPlatform cappedWorld "Z" 200000 zeroBytes).world.ui.errorShareGroup =
        "Share requirements already met!") ∧
    (¬ (200000 : Int) - totalCappedWorld.currentSubmission.shareData.lastShareTimestamp
        < 5000 ∧
      (countedAsTotal totalCappedWorld ||
        countedAsUnique asciiPlatform totalCappedWorld "A") = false ∧
      (incrementShare asciiPlatform totalCappedWorld "A" 200000 zeroBytes
        ).world.ui.errorShareGroup =
        "This group name has already been counted, or the maximum share count has been reached.") :=
  ⟨⟨by decide, by decide,
    ((rejection_reason_of_uncounted_attempt asciiPlatform cappedWorld "Z" 200000 zeroBytes
      (by decide) (by decide)).2.1).mpr ⟨by decide, by decide⟩⟩,
   by decide, by decide,
    ((rejection_reason_of_uncounted_attempt asciiPlatform totalCappedWorld "A" 200000
      zeroBytes (by decide) (by decide)).2.2).mpr ⟨by decide, by decide⟩⟩

/-! ## Loading a cell that is not JSON text -/

theorem loadFormData_corrupt (w : World) (raw : String)
    (h : w.localStorage.formData = Stored.text raw) (hraw : raw ≠ "") :
    loadFormData w = throwJs w JsError.syntaxError := by
  unfold loadFormData
  rw [h]
  simp [Stored.truthy, hraw]

theorem loadShareData_corrupt (w : World) (raw : String)
    (h : w.localStorage.shareData = Stored.text raw) (hraw : raw ≠ "") :
    loadShareData w = throwJs w JsError.syntaxError := by
  unfold loadShareData
  rw [h]
  simp [Stored.truthy, hraw]

theorem loadFormData_storage (w : World) :
    (loadFormData w).world.localStorage = w.localStorage := by
  unfold loadFormData
  split
  · split <;> rfl
  · rfl

theorem loadFormData_shareData (w : World) :
    (loadFormData w).world.currentSubmission.shareData = w.currentSubmission.shareData := by
  unfold loadFormData
  split
  · split <;> rfl
  · rfl

theorem loadFormData_json (w : World) (b : FormBlob)
    (h : w.localStorage.formData = Stored.json b) :
    (loadFormData w).error = none ∧
    (loadFormData w).world.currentSubmission.id = b.id ∧
    (loadFormData w).world.currentSubmission.playerId = b.playerId ∧
    (loadFormData w).world.currentSubmission.playerName = b.playerName ∧
    (loadFormData w).world.currentSubmission.region = b.region ∧
    (loadFormData w).world.currentSubmission.membership = b.membership ∧
    (loadFormData w).world.currentSubmission.walletAmount = b.walletAmount ∧
    (loadFormData w).world.currentSubmission.currency = b.currency ∧
    (loadFormData w).world.currentSubmission.winKey = b.winKey ∧
    (loadFormData w).world.currentSubmission.timestamp = b.timestamp := by
  unfold loadFormData
  rw [h]
  simp [Stored.truthy, done]

/-- C11 (as the code behaves): `loadData` has no handler around `JSON.parse`.  A form
cell that is a non-empty non-JSON string makes it throw a SyntaxError at once, leaving
the whole state, the share portion included, as it was.  A share cell of that kind makes
it throw after the form cell has been handled: the share portion is left as it was, and
a well-formed form cell has been loaded field by field. -/
theorem loadData_throws_on_corrupt_cell (w : World) (raw : String) (hraw : raw ≠ "") :
    (w.localStorage.formData = Stored.text raw →
      loadData w = throwJs w JsError.syntaxError) ∧
    (w.localStorage.shareData = Stored.text raw →
      (loadData w).error = some JsError.syntaxError ∧
      (loadData w).world.currentSubmission.shareData = w.currentSubmission.shareData ∧
      (∀ b : FormBlob, w.localStorage.formData = Stored.json b →
        (loadData w).world.currentSubmission.id = b.id ∧
        (loadData w).world.currentSubmission.playerId = b.playerId ∧
        (loadData w).world.currentSubmission.playerName = b.playerName ∧
        (loadData w).world.currentSubmission.region = b.region ∧
        (loadData w).world.currentSubmission.membership = b.membership ∧
        (loadData w).world.currentSubmission.walletAmount = b.walletAmount ∧
        (loadData w).world.currentSubmission.currency = b.currency ∧
        (loadData w).world.currentSubmission.winKey = b.winKey ∧
        (loadData w).world.currentSubmission.timestamp = b.timestamp)) := by
  constructor
  · intro h
    unfold loadData
    rw [loadFormData_corrupt w raw h hraw]
    rfl
  · intro h
    have hshare : (loadFormData w).world.localStorage.shareData = Stored.text raw := by
      rw [loadFormData_storage, h]
    have hthrow := loadShareData_corrupt (loadFormData w).world raw hshare hraw
    have hload : loadData w =
        (match (loadFormData w).error with
         | none => throwJs (loadFormData w).world JsError.syntaxError
         | some _ => loadFormData w) := by
      unfold loadData Outcome.andThen
      rw [hthrow]
    refine ⟨?_, ?_, ?_⟩
    · rw [hload]
      cases herr : (loadFormData w).error with
      | none => rfl
      | some e =>
        simp only []
        rw [herr]
        have hsyn : ∀ o : Outcome, o = loadFormData w → o.error = some e →
            e = JsError.syntaxError := by
          intro o ho hoe
          rw [ho] at hoe
          unfold loadFormData at hoe
          split at hoe
          · split at hoe
            · exact absurd hoe (by simp [done])
            · simp [throwJs] at hoe
              exact hoe.symm
          · exact absurd hoe (by simp [done])
        rw [hsyn _ rfl herr]
    · rw [hload]
      cases herr : (loadFormData w).error with
      | none => exact loadFormData_shareData w
      | some e => exact loadFormData_shareData w
    · intro b hb
      have hj := loadFormData_json w b hb
      have hw : (loadData w).world = (loadFormData w).world := by
        rw [hload, hj.1]
        rfl
      rw [hw]
      exact hj.2

/-- Counterexample to C11: over a storage whose form cell is the string "not json" and
whose share cell is well formed (5 shares), `loadData` on a fresh record throws a
SyntaxError and the share portion is not loaded (totalShares stays 0); over a storage
whose share cell is "not json" it throws as well. -/
theorem loadData_corrupt_cell_counterexample :
    (loadData (initialWorld 0 corruptFormStorage)).error = some JsError.syntaxError ∧
    corruptFormStorage.shareData = Stored.json sampleShareBlob ∧
    sampleShareBlob.totalShares = 5 ∧
    (loadData (initialWorld 0 corruptFormStorage)
      ).world.currentSubmission.shareData.totalShares = 0 ∧
    (loadData (initialWorld 0 corruptShareStorage)).error = some JsError.syntaxError :=
  ⟨by decide, rfl, by decide, by decide, by decide⟩

/-- Instance of C11 as amended, on the two sample storages. -/
theorem loadData_throws_on_corrupt_cell_witness :
    ("not json" : String) ≠ "" ∧
    loadData (initialWorld 0 corruptFormStorage) =
      throwJs (initialWorld 0 corruptFormStorage) JsError.syntaxError ∧
    (loadData (initialWorld 0 corruptShareStorage)).error = some JsError.syntaxError ∧
    (loadData (initialWorld 0 corruptShareStorage)).world.currentSubmission.shareData =
      (initialWorld 0 corruptShareStorage).currentSubmission.shareData ∧
    (loadData (initialWorld 0 corruptShareStorage)).world.currentSubmission.playerId =
      some "1234567" :=
  ⟨by decide,
    (loadData_throws_on_corrupt_cell (initialWorld 0 corruptFormStorage) "not json"
      (by decide)).1 rfl,
    ((loadData_throws_on_corrupt_cell (initialWorld 0 corruptShareStorage) "not json"
      (by decide)).2 rfl).1,
    ((loadData_throws_on_corrupt_cell (initialWorld 0 corruptShareStorage) "not json"
      (by decide)).2 rfl).2.1,
    (((loadData_throws_on_corrupt_cell (initialWorld 0 corruptShareStorage) "not json"
      (by decide)).2 rfl).2.2 sampleFormBlob rfl).2.1⟩

/-! ## The submissions log -/

theorem upsertEntry_nil (e : LogEntry) : upsertEntry e [] = [e] := rfl

theorem upsertEntry_cons (e x : LogEntry) (xs : List LogEntry) :
    upsertEntry e (x :: xs) =
      if x.id = e.id then e :: xs else x :: upsertEntry e xs := by
  unfold upsertEntry
  by_cases h : x.id = e.id
  · simp [findIndex, h]
  · simp only [findIndex, h, decide_False, Bool.false_eq_true, if_false]
    cases findIndex (fun s => decide (s.id = e.id)) xs <;> simp

theorem map_id_upsertEntry (e : LogEntry) (l : List LogEntry) :
    (upsertEntry e l).map (fun s => s.id) =
      if e.id ∈ l.map (fun s => s.id) then l.map (fun s => s.id)
      else l.map (fun s => s.id) ++ [e.id] := by
  induction l with
  | nil => simp [upsertEntry_nil]
  | cons x xs ih =>
    rw [upsertEntry_cons]
    by_cases h : x.id = e.id
    · simp [h]
    · have h2 : ¬ e.id = x.id := fun h3 => h h3.symm
      rw [if_neg h, List.map_cons, ih]
      by_cases hm : e.id ∈ xs.map (fun s => s.id)
      · simp [hm]
      · simp [hm, h2]

theorem filter_upsertEntry (e : LogEntry) (l : List LogEntry)
    (hnd : (l.map (fun s => s.id)).Nodup) :
    (upsertEntry e l).filter (fun s => decide (s.id = e.id)) = [e] := by
  induction l with
  | nil => simp [upsertEntry_nil]
  | cons x xs ih =>
    rw [List.map_cons, List.nodup_cons] at hnd
    rw [upsertEntry_cons]
    by_cases h : x.id = e.id
    · rw [if_pos h]
      have hnone : xs.filter (fun s => decide (s.id = e.id)) = [] := by
        rw [List.filter_eq_nil_iff]
        intro a ha hid
        apply hnd.1
        rw [h]
        have hid2 : a.id = e.id := by simpa using hid
        rw [← hid2]
        exact List.mem_map_of_mem (fun s => s.id) ha
      simp [hnone]
    · rw [if_neg h]
      simp [h, ih hnd.2]

theorem getElem_upsertEntry (e : LogEntry) (l : List LogEntry) :
    ∀ (i : Nat) (h : i < l.length), l[i].id ≠ e.id → (upsertEntry e l)[i]? = some l[i] := by
  induction l with
  | nil => intro i h; exact absurd h (Nat.not_lt_zero i)
  | cons x xs ih =>
    intro i h hne
    rw [upsertEntry_cons]
    by_cases hx : x.id = e.id
    · rw [if_pos hx]
      cases i with
      | zero => exact absurd hx hne
      | succ j => simp
    · rw [if_neg hx]
      cases i with
      | zero => simp
      | succ j =>
        simp only [List.getElem?_cons_succ, List.getElem_cons_succ]
        exact ih j (Nat.lt_of_succ_lt_succ h) hne

theorem updateSubmissionLog_submissions (w : World) (l : List LogEntry)
    (hlog : parseSubmissions w.localStorage.submissions = some l) :
    (updateSubmissionLog w).world.localStorage.submissions =
      Stored.json (upsertEntry (logEntryOf w.currentSubmission) l) := by
  unfold updateSubmissionLog
  rw [hlog]
  rfl

theorem saveData_submissions_of_key (w : World) (l : List LogEntry)
    (hlog : parseSubmissions w.localStorage.submissions = some l)
    (hkey : truthy w.currentSubmission.winKey = true) :
    (saveData w).world.localStorage.submissions =
      Stored.json (upsertEntry (logEntryOf w.currentSubmission) l) := by
  simp only [saveData, hkey, if_true]
  exact updateSubmissionLog_submissions _ l hlog

theorem saveData_submissions_no_key (w : World)
    (hkey : truthy w.currentSubmission.winKey = false) :
    (saveData w).world.localStorage.submissions = w.localStorage.submissions := by
  simp [saveData, hkey, done]

/-- C13: for a stored log `l` whose ids are pairwise distinct, `saveData` on a record
whose winKey is set leaves as log the list in which exactly one entry carries the
record's id, namely the summary (id, playerId, membership, winKey, totalShares, the
size of uniqueGroups, timestamp); every entry with another id is unchanged at its
position; the length grows by 1 exactly when the id was absent; ids stay pairwise
distinct.  When winKey is not set the log cell is unchanged. -/
theorem saveData_upserts_summary (w : World) (l : List LogEntry)
    (hlog : parseSubmissions w.localStorage.submissions = some l)
    (hnd : (l.map (fun s => s.id)).Nodup) :
    (truthy w.currentSubmission.winKey = true →
      ∃ l1 : List LogEntry,
        (saveData w).world.localStorage.submissions = Stored.json l1 ∧
        l1.filter (fun s => decide (s.id = w.currentSubmission.id)) =
          [{ id := w.currentSubmission.id,
             playerId := w.currentSubmission.playerId,
             membership := w.currentSubmission.membership,
             winKey := w.currentSubmission.winKey,
             totalShares := w.currentSubmission.shareData.totalShares,
             uniqueGroups := w.currentSubmission.shareData.uniqueGroups.size,
             timestamp := w.currentSubmission.timestamp }] ∧
        (∀ (i : Nat) (h : i < l.length),
          l[i].id ≠ w.currentSubmission.id → l1[i]? = some l[i]) ∧
        l1.length =
          l.length + (if w.currentSubmission.id ∈ l.map (fun s => s.id) then 0 else 1) ∧
        (l1.map (fun s => s.id)).Nodup) ∧
    (truthy w.currentSubmission.winKey = false →
      (saveData w).world.localStorage.submissions = w.localStorage.submissions) := by
  constructor
  · intro hkey
    refine ⟨upsertEntry (logEntryOf w.currentSubmission) l, ?_, ?_, ?_, ?_, ?_⟩
    · exact saveData_submissions_of_key w l hlog hkey
    · exact filter_upsertEntry (logEntryOf w.currentSubmission) l hnd
    · exact getElem_upsertEntry (logEntryOf w.currentSubmission) l
    · have hm := congrArg List.length (map_id_upsertEntry (logEntryOf w.currentSubmission) l)
      rw [List.length_map] at hm
      rw [hm]
      by_cases hin : (logEntryOf w.currentSubmission).id ∈ l.map (fun s => s.id)
      · have hin2 : w.currentSubmission.id ∈ l.map (fun s => s.id) := hin
        rw [if_pos hin, if_pos hin2, List.length_map]
        rfl
      · have hin2 : ¬ w.currentSubmission.id ∈ l.map (fun s => s.id) := hin
        rw [if_neg hin, if_neg hin2, List.length_append, List.length_map]
        rfl
    · rw [map_id_upsertEntry]
      by_cases hin : (logEntryOf w.currentSubmission).id ∈ l.map (fun s => s.id)
      · rw [if_pos hin]
        exact hnd
      · rw [if_neg hin]
        exact List.Nodup.append hnd (List.nodup_singleton _) (by
          intro a ha hx
          have hax : a = (logEntryOf w.currentSubmission).id := by simpa using hx
          exact hin (hax ▸ ha))
  · intro hkey
    exact saveData_submissions_no_key w hkey

/-- Instance of C13: the keyed sample record, whose id is that of the first entry of the
two-entry sample log, replaces that entry by its summary and keeps the second. -/
theorem saveData_upserts_summary_witness :
    parseSubmissions keyedWorld.localStorage.submissions = some sampleLog ∧
    (sampleLog.map (fun s => s.id)).Nodup ∧
    truthy keyedWorld.currentSubmission.winKey = true ∧
    (∃ l1 : List LogEntry,
      (saveData keyedWorld).world.localStorage.submissions = Stored.json l1 ∧
      l1.filter (fun s => decide (s.id = keyedWorld.currentSubmission.id)) =
        [{ id := keyedWorld.currentSubmission.id,
           playerId := keyedWorld.currentSubmission.playerId,
           membership := keyedWorld.currentSubmission.membership,
           winKey := keyedWorld.currentSubmission.winKey,
           totalShares := keyedWorld.currentSubmission.shareData.totalShares,
           uniqueGroups := keyedWorld.currentSubmission.shareData.uniqueGroups.size,
           timestamp := keyedWorld.currentSubmission.timestamp }] ∧
      (∀ (i : Nat) (h : i < sampleLog.length),
        sampleLog[i].id ≠ keyedWorld.currentSubmission.id → l1[i]? = some sampleLog[i]) ∧
      l1.length =
        sampleLog.length +
          (if keyedWorld.currentSubmission.id ∈ sampleLog.map (fun s => s.id) then 0 else 1) ∧
      (l1.map (fun s => s.id)).Nodup) :=
  ⟨rfl, by decide, by decide,
    (saveData_upserts_summary keyedWorld sampleLog rfl (by decide)).1 (by decide)⟩

/-! ## The strong-random path: bytes to symbols -/

theorem appendIndexed_symbolAt (segment : String) (b : Nat) :
    appendIndexed segment (b % 256 % chars.length) = segment.push (symbolAt b) := by
  have hlen : chars.length = 36 := chars_data_length
  have hi : b % 256 % chars.length < chars.data.length := by
    rw [hlen, chars_data_length]
    exact Nat.mod_lt _ (by norm_num)
  unfold appendIndexed symbolAt
  rw [List.getElem?_eq_getElem hi, List.getD_eq_getElem _ _ hi]

theorem generateSegment_crypto (bytes : Nat → Nat) :
    generateSegment (RandomSource.crypto bytes) =
      (String.mk [symbolAt (bytes 0), symbolAt (bytes 1), symbolAt (bytes 2),
                  symbolAt (bytes 3)],
       RandomSource.crypto (fun i => bytes (i + 4))) := by
  have hr : List.range segmentLength = [0, 1, 2, 3] := by decide
  simp only [generateSegment, hr, List.foldl, List.map, List.getD_cons_zero,
    List.getD_cons_succ, appendIndexed_symbolAt]
  rfl

/-- C12 (as the code behaves): on the strong path each character of a segment is
`chars[b % 36]` for its own byte `b` (the `i`-th byte of the segment's draw gives its
`i`-th character), and of the 256 byte values the symbols A, B, C, D each have 8 that
map to them while each of the other 32 symbols has 7. -/
theorem strong_path_symbol_counts :
    (∀ bytes : Nat → Nat,
      (generateSegment (RandomSource.crypto bytes)).1 =
        String.mk [symbolAt (bytes 0), symbolAt (bytes 1), symbolAt (bytes 2),
                   symbolAt (bytes 3)]) ∧
    (∀ b : Nat, symbolAt b = chars.data.getD (b % 256 % 36) 'A') ∧
    (List.range 36).map (fun j => bytesGiving (chars.data.getD j 'A')) =
      List.replicate 4 8 ++ List.replicate 32 7 := by
  refine ⟨?_, fun _ => rfl, by decide⟩
  intro bytes
  rw [generateSegment_crypto]

/-- Counterexample to C12: 8 byte values give the symbol A (0, 36, ..., 252) and only 7
give the symbol E (4, 40, ..., 220), so a uniform byte does not give a uniform symbol. -/
theorem strong_path_not_uniform_counterexample :
    bytesGiving 'A' = 8 ∧ bytesGiving 'E' = 7 ∧ bytesGiving 'A' ≠ bytesGiving 'E' := by
  decide

/-! ## The round trip and the wallet amount -/

/-- Counterexample to C10: the form with wallet text "1e999" passes `validateForm`, and
`handleFormSubmit` stores Infinity in `walletAmount`; `saveData` writes it as `null`, so
`loadData` on a fresh record rebuilds `walletAmount` as `null`, not Infinity. -/
theorem save_then_load_loses_infinity_counterexample :
    (handleFormSubmit freshWorld infinityForm "k3x9" zeroBytes
      ).world.currentSubmission.walletAmount = some JsDouble.posInfinity ∧
    (loadData (initialWorld 0
        (saveData (handleFormSubmit freshWorld infinityForm "k3x9" zeroBytes).world
          ).world.localStorage)).world.currentSubmission.walletAmount = none ∧
    (loadData (initialWorld 0
        (saveData (handleFormSubmit freshWorld infinityForm "k3x9" zeroBytes).world
          ).world.localStorage)).world.currentSubmission.walletAmount ≠
      (handleFormSubmit freshWorld infinityForm "k3x9" zeroBytes
        ).world.currentSubmission.walletAmount := by
  decide

/-- Instance of C10 as amended: the record with wallet amount 12.5 is rebuilt whole. -/
theorem save_then_load_rebuilds_finite_record_witness :
    decimalWorld.currentSubmission.walletAmount = some (JsDouble.finite (25 / 2)) ∧
    (loadData (initialWorld 7 (saveData decimalWorld).world.localStorage)
      ).world.currentSubmission = decimalWorld.currentSubmission :=
  ⟨rfl,
    ((save_then_load_rebuilds_finite_record decimalWorld 7).2.2.2.2.2.2.2.2.2.2.2
      (25 / 2) rfl).2⟩

end Giveaway
